import Mathlib

/-
Verification of the cross-store orchestration core of the Research
Collaboration System: a shallow embedding of the document-store (MongoDB),
graph-store (Neo4j) and cache-store (Redis) repositories together with the
facade (ResearchDatabaseManager) and the read aggregator
(ResearchQueryEngine), translated from the Python sources in
src/code/repositories/mongo_repo.py, neo4j_repo.py, redis_repo.py,
src/code/database_manager.py and src/code/query_engine.py.

Modelling conventions:
  - JSON-like values are the inductive `Val`; Python dicts are association
    lists `Dict` preserving insertion order (Python 3.7+ dict semantics:
    assignment to an existing key keeps its position, to a new key appends).
  - datetimes are abstract ticks `Val.time n`; `datetime.utcnow()` is an
    explicit `now : Nat` argument threaded through the operations.
  - store outages are explicit Booleans (`mongoUp`, `neo4jUp`, `redisUp`);
    a repository method whose Python body catches its own exceptions and
    returns a fallback is modelled as a total function returning that
    fallback when the flag is false, leaving its store untouched.
  - Python exceptions that escape a repository method (or are raised by the
    facade/aggregator code itself) are modelled with `Except String`;
    side effects performed before the raise are kept, as in Python.
  - the JSON round-trip through the cache (json.dumps/json.loads with
    default=str) is modelled as the identity on `Dict`.
-/

/-- JSON-like value as stored in the document store and caches.  `oid` is a
legacy BSON ObjectId (held as its 24-character hex string); `time` is an
abstract datetime tick. -/
inductive Val where
  | null : Val
  | str (s : String) : Val
  | num (n : Int) : Val
  | boolean (b : Bool) : Val
  | time (t : Nat) : Val
  | oid (s : String) : Val
  | obj (fields : List (String × Val)) : Val
  | arr (xs : List Val) : Val

/-- A Python dict with string keys, in insertion order. -/
abbrev Dict := List (String × Val)

/-- Python d.get(k): first binding of the key, if any. -/
def dictGet : Dict → String → Option Val
  | [], _ => none
  | (k, v) :: rest, key => if k = key then some v else dictGet rest key

/-- Python d.get(k, default). -/
def dictGetD (d : Dict) (key : String) (dflt : Val) : Val :=
  (dictGet d key).getD dflt

/-- Python membership test `k in d`. -/
def dictHas (d : Dict) (key : String) : Bool :=
  (dictGet d key).isSome

/-- Python assignment d[k] = v: replace in place if the key exists,
append otherwise. -/
def dictSet : Dict → String → Val → Dict
  | [], key, v => [(key, v)]
  | (k, w) :: rest, key, v =>
      if k = key then (key, v) :: rest else (k, w) :: dictSet rest key v

/-- Equality test used by the document store when matching an `_id` filter
value: only string and ObjectId identifiers compare equal (other value
shapes never occur as `_id` filters in this codebase). -/
def idValEq : Val → Val → Bool
  | .str a, .str b => a == b
  | .oid a, .oid b => a == b
  | _, _ => false

/-- Python str(...) applied to a stored `_id`: strings and ObjectIds render
as their underlying text. -/
def idValString : Val → String
  | .str s => s
  | .oid s => s
  | _ => ""

/-- Whether a character is a hexadecimal digit (the alphabet accepted by the
ObjectId constructor). -/
def hexChar (c : Char) : Bool :=
  c.isDigit || ('a' ≤ c && c ≤ 'f') || ('A' ≤ c && c ≤ 'F')

/-- Whether `ObjectId(s)` succeeds: exactly 24 hexadecimal characters.
The Python code first checks `len(s) == 24` and then lets the ObjectId
constructor validate the alphabet (an invalid string raises, is caught,
and the fallback is skipped). -/
def isHex24 (s : String) : Bool :=
  s.length == 24 && s.data.all hexChar

/-- Whether a document carries the given filter value as its `_id`. -/
def idMatch (d : Dict) (idv : Val) : Bool :=
  match dictGet d "_id" with
  | some v => idValEq v idv
  | none => false

/-- Whether a document is matched by the string-keyed filter
{'_id': rid} (with rid a Python string). -/
def strIdMatch (d : Dict) (rid : String) : Bool :=
  idMatch d (.str rid)

namespace MongoDBRepository

/-- find_one({'_id': idv}): first document whose `_id` equals the filter
value (natural order = insertion order). -/
def findOne (coll : List Dict) (idv : Val) : Option Dict :=
  coll.find? (idMatch · idv)

/-- researcher['_id'] = str(researcher['_id']): normalise the stored
identifier to its string rendering before returning a document. -/
def convertIdStr (d : Dict) : Dict :=
  match dictGet d "_id" with
  | some v => dictSet d "_id" (.str (idValString v))
  | none => d

/-- MongoDBRepository.get_researcher (mongo_repo.py lines 69 to 92): primary
string-keyed lookup, then, when that misses and the identifier parses as a
24-character hex ObjectId, a secondary lookup under the ObjectId form. -/
def get_researcher (coll : List Dict) (researcher_id : String) : Option Dict :=
  if researcher_id = "" then none
  else
    match findOne coll (.str researcher_id) with
    | some d => some (convertIdStr d)
    | none =>
        if isHex24 researcher_id then
          match findOne coll (.oid researcher_id) with
          | some d => some (convertIdStr d)
          | none => none
        else none

/-- MongoDBRepository.create_researcher (mongo_repo.py lines 47 to 67).
Mutates the caller dict: writes the metadata block, generates a string
`_id` when none was supplied, then insert_one.  An unavailable store or a
duplicate `_id` makes insert_one raise, which the method re-raises.
Returns (returned id, new collection, mutated caller dict). -/
def create_researcher (up : Bool) (now : Nat) (freshId : String)
    (coll : List Dict) (researcher_data : Dict) :
    Except String (String × List Dict × Dict) :=
  let d1 := dictSet researcher_data "metadata"
    (.obj [("created_at", .time now), ("last_updated", .time now),
           ("status", .str "active"), ("verified", .boolean false)])
  let d2 := if dictHas d1 "_id" then d1 else dictSet d1 "_id" (.str freshId)
  if up = false then .error "mongo insert failed"
  else
    match dictGet d2 "_id" with
    | some idv =>
        if (findOne coll idv).isSome then .error "duplicate key"
        else .ok (idValString idv, coll ++ [d2], d2)
    | none => .ok ("", coll ++ [d2], d2)

/-- Set one dotted path inside a document ($set semantics): intermediate
objects are created when absent; a non-object intermediate is replaced
(this codebase only issues paths whose intermediates are documents). -/
def setPath : Dict → List String → Val → Dict
  | d, [], _ => d
  | d, [k], v => dictSet d k v
  | d, k :: rest, v =>
      let sub := match dictGet d k with
        | some (.obj o) => o
        | _ => []
      dictSet d k (.obj (setPath sub rest v))

/-- Apply a $set update document: each key is a dotted path, applied left
to right. -/
def applySet (doc : Dict) (upd : Dict) : Dict :=
  upd.foldl (fun d kv => setPath d (kv.1.splitOn ".") kv.2) doc

/-- update_one({'_id': rid}, {'$set': upd}) against the string-keyed
identifier: the first matching document is rewritten with the $set
document.  The reported count is the number of documents modified; because
every $set issued by this repository carries a fresh
`metadata.last_updated` tick which is strictly newer than the stored one,
a matched document always changes, so matched = modified here. -/
def updateOne (coll : List Dict) (rid : String) (upd : Dict) : Nat × List Dict :=
  match coll with
  | [] => (0, [])
  | d :: ds =>
      if strIdMatch d rid then
        (1, applySet d upd :: ds)
      else
        let (n, ds') := updateOne ds rid upd
        (n, d :: ds')

/-- MongoDBRepository.update_researcher (mongo_repo.py lines 109 to 121).
Mutates the caller dict by adding a fresh `metadata.last_updated` dotted
field, then update_one on the string identifier (no ObjectId fallback);
returns modified_count > 0, catching store failures as False.
Returns (result, new collection, mutated caller dict). -/
def update_researcher (up : Bool) (now : Nat) (coll : List Dict)
    (researcher_id : String) (update_data : Dict) : Bool × List Dict × Dict :=
  let upd := dictSet update_data "metadata.last_updated" (.time now)
  if up = false then (false, coll, upd)
  else
    let (n, coll') := updateOne coll researcher_id upd
    (decide (n > 0), coll', upd)

/-- delete_one({'_id': rid}): remove the first string-keyed match. -/
def deleteOne (coll : List Dict) (rid : String) : Nat × List Dict :=
  match coll with
  | [] => (0, [])
  | d :: ds =>
      if strIdMatch d rid then
        (1, ds)
      else
        let (n, ds') := deleteOne ds rid
        (n, d :: ds')

/-- MongoDBRepository.delete_researcher (mongo_repo.py lines 123 to 131):
delete_one on the string identifier (no ObjectId fallback); returns
deleted_count > 0, catching store failures as False. -/
def delete_researcher (up : Bool) (coll : List Dict)
    (researcher_id : String) : Bool × List Dict :=
  if up = false then (false, coll)
  else
    let (n, coll') := deleteOne coll researcher_id
    (decide (n > 0), coll')

/-- MongoDBRepository.update_project (mongo_repo.py lines 198 to 210): same
shape as update_researcher, on the projects collection. -/
def update_project (up : Bool) (now : Nat) (coll : List Dict)
    (project_id : String) (update_data : Dict) : Bool × List Dict × Dict :=
  let upd := dictSet update_data "metadata.last_updated" (.time now)
  if up = false then (false, coll, upd)
  else
    let (n, coll') := updateOne coll project_id upd
    (decide (n > 0), coll', upd)

/-- MongoDBRepository.update_publication (mongo_repo.py lines 284 to 296):
same shape as update_researcher, on the publications collection. -/
def update_publication (up : Bool) (now : Nat) (coll : List Dict)
    (publication_id : String) (update_data : Dict) : Bool × List Dict × Dict :=
  let upd := dictSet update_data "metadata.last_updated" (.time now)
  if up = false then (false, coll, upd)
  else
    let (n, coll') := updateOne coll publication_id upd
    (decide (n > 0), coll', upd)

end MongoDBRepository

/-- A CO_AUTHORED_WITH relationship between two researcher ids, undirected,
carrying a strength counter. -/
structure GEdge where
  a : String
  b : String
  strength : Nat

/-- The Neo4j graph: Researcher nodes (each a property map, matched by its
`id` property) and co-authorship edges. -/
structure Graph where
  nodes : List Dict
  edges : List GEdge

/-- Whether a node has the given `id` property value. -/
def nodeHasId (nd : Dict) (rid : String) : Bool :=
  match dictGet nd "id" with
  | some (.str s) => s == rid
  | _ => false

/-- Whether an edge touches the given id. -/
def edgeTouches (e : GEdge) (x : String) : Bool :=
  e.a == x || e.b == x

/-- The endpoint of an edge opposite to x. -/
def edgeOther (e : GEdge) (x : String) : String :=
  if e.a == x then e.b else e.a

/-- Whether an edge joins the unordered pair (x, y). -/
def edgeJoins (e : GEdge) (x y : String) : Bool :=
  (e.a == x && e.b == y) || (e.a == y && e.b == x)

namespace Neo4jRepository

/-- MERGE (r:Researcher {id: $id}): match an existing node by id, else
create one whose only property is the id. -/
def mergeNode (nodes : List Dict) (rid : String) : List Dict :=
  if nodes.any (nodeHasId · rid) then nodes
  else nodes ++ [[("id", .str rid)]]

/-- ON MATCH SET c.strength = c.strength + 1 applied to the first edge
joining the pair; none when no edge joins it. -/
def bumpEdge : List GEdge → String → String → Option (List GEdge)
  | [], _, _ => none
  | e :: es, x, y =>
      if edgeJoins e x y then some ({ e with strength := e.strength + 1 } :: es)
      else match bumpEdge es x y with
        | some es' => some (e :: es')
        | none => none

/-- Neo4jRepository.add_collaboration (neo4j_repo.py lines 137 to 156):
MERGE both nodes, then MERGE an undirected CO_AUTHORED_WITH edge with
ON CREATE strength = 1, ON MATCH strength = strength + 1.  Store failure
is caught and reported as False with the graph untouched. -/
def add_collaboration (up : Bool) (g : Graph)
    (researcher1_id researcher2_id : String) : Bool × Graph :=
  if up = false then (false, g)
  else
    let nodes' := mergeNode (mergeNode g.nodes researcher1_id) researcher2_id
    let edges' := match bumpEdge g.edges researcher1_id researcher2_id with
      | some es => es
      | none => g.edges ++ [⟨researcher1_id, researcher2_id, 1⟩]
    (true, ⟨nodes', edges'⟩)

/-- Neo4jRepository.create_researcher_node (neo4j_repo.py lines 48 to 73):
builds a property map from required sub-fields of the researcher document
(a missing sub-field raises KeyError, caught inside the method, giving
False with the graph untouched), then CREATE unconditionally appends a new
node. -/
def create_researcher_node (up : Bool) (g : Graph) (researcher_data : Dict) :
    Bool × Graph :=
  if up = false then (false, g)
  else
    match dictGet researcher_data "personal_info",
          dictGet researcher_data "academic_profile",
          dictGet researcher_data "collaboration_metrics" with
    | some (.obj pi), some (.obj ap), some (.obj cm) =>
        match dictGet pi "first_name", dictGet pi "last_name",
              dictGet pi "email", dictGet ap "department_id",
              dictGet ap "position", dictGet cm "h_index",
              dictGet cm "total_publications" with
        | some (.str fn), some (.str ln), some email, some dept,
          some pos, some h, some p =>
            let props : Dict :=
              [("id", dictGetD researcher_data "_id" .null),
               ("name", .str (fn ++ " " ++ ln)),
               ("email", email), ("department", dept), ("position", pos),
               ("h_index", h), ("publication_count", p),
               ("orcid_id", dictGetD researcher_data "orcid_id" .null)]
            (true, { g with nodes := g.nodes ++ [props] })
        | _, _, _, _, _, _, _ => (false, g)
    | _, _, _ => (false, g)

/-- The dynamically built SET pairs of update_researcher_node: only the
recognised sub-fields are mirrored.  Returns none when a present section is
not a document (the Python membership test then raises, caught inside the
method). -/
def mirrorPairs (update_data : Dict) : Option (List (String × Val)) :=
  let sec : String → Option (Option Dict) := fun k =>
    match dictGet update_data k with
    | none => some none
    | some (.obj o) => some (some o)
    | some _ => none
  match sec "personal_info", sec "academic_profile",
        sec "collaboration_metrics" with
  | some pi, some ap, some cm =>
      let fromPi : List (String × Val) :=
        match pi with
        | none => []
        | some info =>
            (match dictGet info "first_name", dictGet info "last_name" with
             | some (.str fn), some (.str ln) => [("name", .str (fn ++ " " ++ ln))]
             | _, _ => []) ++
            (match dictGet info "email" with
             | some e => [("email", e)]
             | none => [])
      let fromAp : List (String × Val) :=
        match ap with
        | none => []
        | some prof =>
            (match dictGet prof "department_id" with
             | some d => [("department", d)]
             | none => []) ++
            (match dictGet prof "position" with
             | some p => [("position", p)]
             | none => [])
      let fromCm : List (String × Val) :=
        match cm with
        | none => []
        | some m =>
            (match dictGet m "h_index" with
             | some h => [("h_index", h)]
             | none => []) ++
            (match dictGet m "total_publications" with
             | some p => [("publication_count", p)]
             | none => [])
      some (fromPi ++ fromAp ++ fromCm)
  | _, _, _ => none

/-- Neo4jRepository.update_researcher_node (neo4j_repo.py lines 75 to 118):
mirrors only the recognised fields via a dynamically built SET clause.
With no recognised field it returns True without touching the graph; the
MATCH ... SET statement updates every node carrying the id (a vacuous
match is still a successful run, hence True). -/
def update_researcher_node (up : Bool) (g : Graph) (researcher_id : String)
    (update_data : Dict) : Bool × Graph :=
  if up = false then (false, g)
  else
    match mirrorPairs update_data with
    | none => (false, g)
    | some [] => (true, g)
    | some pairs =>
        let apply1 : Dict → Dict := fun nd =>
          if nodeHasId nd researcher_id then
            pairs.foldl (fun d kv => dictSet d kv.1 kv.2) nd
          else nd
        (true, { g with nodes := g.nodes.map apply1 })

/-- Neo4jRepository.delete_researcher_node (neo4j_repo.py lines 120 to 133):
MATCH (r:Researcher {id}) DETACH DELETE r: remove every node carrying the
id together with all incident edges. -/
def delete_researcher_node (up : Bool) (g : Graph) (researcher_id : String) :
    Bool × Graph :=
  if up = false then (false, g)
  else
    (true, ⟨g.nodes.filter (fun nd => !(nodeHasId nd researcher_id)),
            g.edges.filter (fun e => !(edgeTouches e researcher_id))⟩)

/-- Query rows for find_collaborators: (collaborator id, distance) pairs for
relationship-unique undirected trails of length 1 and 2 out of the start
node, as matched by (r)-[:CO_AUTHORED_WITH*1..2]-(collaborator). -/
def collabRows (g : Graph) (rid : String) : List (String × Nat) :=
  let indexed := g.edges.enum
  let oneHop := indexed.filterMap fun ie =>
    if edgeTouches ie.2 rid then some (edgeOther ie.2 rid, 1) else none
  let twoHop := (indexed.map fun ie =>
    if edgeTouches ie.2 rid then
      let mid := edgeOther ie.2 rid
      indexed.filterMap fun je =>
        if je.1 ≠ ie.1 && edgeTouches je.2 mid then
          some (edgeOther je.2 mid, 2)
        else none
    else []).flatten
  oneHop ++ twoHop

/-- RETURN DISTINCT over rows, with the already-emitted rows accumulated:
keep the first occurrence of each (collaborator, distance) pair. -/
def dedupRowsAux (seen : List (String × Nat)) :
    List (String × Nat) → List (String × Nat)
  | [] => []
  | r :: rs =>
      if seen.contains r then dedupRowsAux seen rs
      else r :: dedupRowsAux (r :: seen) rs

/-- RETURN DISTINCT over rows: keep the first occurrence of each
(collaborator, distance) pair. -/
def dedupRows (l : List (String × Nat)) : List (String × Nat) :=
  dedupRowsAux [] l

/-- The h_index property of the first node carrying the id, as the numeric
sort key of the ORDER BY clause (a missing property is null, which Cypher
sorts above every number, hence first under DESC). -/
def hIndexKey (g : Graph) (rid : String) : Option Int :=
  match g.nodes.find? (nodeHasId · rid) with
  | some nd =>
      match dictGet nd "h_index" with
      | some (.num n) => some n
      | _ => none
  | none => none

/-- ORDER BY distance, collaborator.h_index DESC comparison on rows. -/
def rowLe (g : Graph) (r1 r2 : String × Nat) : Bool :=
  r1.2 < r2.2 ||
    (r1.2 == r2.2 &&
      (match hIndexKey g r1.1, hIndexKey g r2.1 with
       | none, _ => true
       | some _, none => false
       | some x, some y => y ≤ x))

/-- Stable insertion into a sorted list. -/
def insertRow (le : (String × Nat) → (String × Nat) → Bool)
    (x : String × Nat) : List (String × Nat) → List (String × Nat)
  | [] => [x]
  | y :: ys => if le x y then x :: y :: ys else y :: insertRow le x ys

/-- Stable insertion sort (the engine's ORDER BY). -/
def sortRows (le : (String × Nat) → (String × Nat) → Bool) :
    List (String × Nat) → List (String × Nat)
  | [] => []
  | x :: xs => insertRow le x (sortRows le xs)

/-- Neo4jRepository.find_collaborators (neo4j_repo.py lines 197 to 219):
distinct (collaborator, distance) rows over trails of depth 1..max_depth
(called with the default depth 2 by the aggregator), ordered by distance
then h_index descending, LIMIT 20; each row is returned as the node
property map plus a `distance` entry.  An absent start node matches no
path; store failure is caught as an empty list. -/
def find_collaborators (up : Bool) (g : Graph) (researcher_id : String) :
    List Dict :=
  if up = false then []
  else if !(g.nodes.any (nodeHasId · researcher_id)) then []
  else
    let rows := sortRows (rowLe g) (dedupRows (collabRows g researcher_id))
    (rows.take 20).map fun r =>
      let props := match g.nodes.find? (nodeHasId · r.1) with
        | some nd => nd
        | none => []
      dictSet props "distance" (.num r.2)

end Neo4jRepository

/-- The Redis cache: the full-profile entries (researcher_profile:id keys,
each a body with its TTL) and the statistics hashes (researcher_stats:id
keys, string-valued field maps with their TTL). -/
structure RedisState where
  profileCache : List (String × Dict × Nat)
  statsCache : List (String × List (String × String) × Nat)

/-- Replace the entry under a key, or append it. -/
def assocSet {β : Type} : List (String × β) → String → β → List (String × β)
  | [], key, v => [(key, v)]
  | (k, w) :: rest, key, v =>
      if k = key then (key, v) :: rest else (k, w) :: assocSet rest key v

/-- Lookup by key. -/
def assocGet {β : Type} : List (String × β) → String → Option β
  | [], _ => none
  | (k, w) :: rest, key => if k = key then some w else assocGet rest key

/-- Remove a key. -/
def assocDel {β : Type} (l : List (String × β)) (key : String) :
    List (String × β) :=
  l.filter (fun kv => kv.1 ≠ key)

/-- Python str(v) on a cached statistics value. -/
def valToString : Val → String
  | .null => "None"
  | .str s => s
  | .num n => toString n
  | .boolean b => if b then "True" else "False"
  | .time t => toString t
  | .oid s => s
  | .obj _ => "obj"
  | .arr _ => "arr"

namespace RedisRepository

/-- RedisRepository.cache_researcher_profile (redis_repo.py lines 49 to 58):
SETEX researcher_profile:id with the given TTL (1800 by default at every
call site in scope); store failure is caught as False with no write. -/
def cache_researcher_profile (up : Bool) (r : RedisState)
    (researcher_id : String) (profile_data : Dict) (ttl : Nat) :
    Bool × RedisState :=
  if up = false then (false, r)
  else (true, { r with
    profileCache := assocSet r.profileCache researcher_id (profile_data, ttl) })

/-- RedisRepository.get_cached_researcher_profile (redis_repo.py lines 60 to
70): GET researcher_profile:id; store failure is caught as None. -/
def get_cached_researcher_profile (up : Bool) (r : RedisState)
    (researcher_id : String) : Option Dict :=
  if up = false then none
  else
    match assocGet r.profileCache researcher_id with
    | some (d, _) => some d
    | none => none

/-- RedisRepository.update_researcher_stats (redis_repo.py lines 72 to 82):
HSET researcher_stats:id with the stringified mapping (existing fields not
in the mapping are kept), then EXPIRE 3600. -/
def update_researcher_stats (up : Bool) (r : RedisState)
    (researcher_id : String) (stats : List (String × String)) :
    Bool × RedisState :=
  if up = false then (false, r)
  else
    let old : List (String × String) :=
      match assocGet r.statsCache researcher_id with
      | some (m, _) => m
      | none => []
    let merged := stats.foldl (fun m kv => assocSet m kv.1 kv.2) old
    (true, { r with
      statsCache := assocSet r.statsCache researcher_id (merged, 3600) })

/-- RedisRepository.invalidate_researcher_cache (redis_repo.py lines 207 to
220): DEL researcher_profile:id and researcher_stats:id. -/
def invalidate_researcher_cache (up : Bool) (r : RedisState)
    (researcher_id : String) : Bool × RedisState :=
  if up = false then (false, r)
  else (true, ⟨assocDel r.profileCache researcher_id,
               assocDel r.statsCache researcher_id⟩)

end RedisRepository

/-- The bundle of store states and availability flags shared by the facade
and the query engine (the connected repositories of
ResearchDatabaseManager). -/
structure World where
  researchers : List Dict
  publications : List Dict
  projects : List Dict
  graph : Graph
  redis : RedisState
  mongoUp : Bool
  neo4jUp : Bool
  redisUp : Bool

namespace ResearchDatabaseManager

/-- The statistics mapping built by the facade from a metrics document:
publications_count, h_index and collaboration_score.  In
create_researcher_comprehensive all three are read with [] indexing
(KeyError when absent); returns none in that case. -/
def createStats (m : Dict) : Option (List (String × String)) :=
  match dictGet m "total_publications", dictGet m "h_index",
        dictGet m "collaboration_score" with
  | some p, some h, some c =>
      some [("publications_count", valToString p), ("h_index", valToString h),
            ("collaboration_score", valToString c)]
  | _, _, _ => none

/-- ResearchDatabaseManager.create_researcher_comprehensive
(database_manager.py lines 88 to 114): insert into MongoDB (re-raising its
failure with nothing mirrored), copy the returned id onto the entity,
best-effort mirror into Neo4j, then write the statistics hash (when the
entity carries collaboration_metrics) and cache the full body in Redis.
A KeyError while the facade itself reads the metrics block escapes after
the document write (modelled as an error result carrying the state
mutated so far).  Returns (result, final world). -/
def create_researcher_comprehensive (w : World) (now : Nat) (freshId : String)
    (researcher_data : Dict) : Except String String × World :=
  match MongoDBRepository.create_researcher w.mongoUp now freshId
      w.researchers researcher_data with
  | .error e => (.error e, w)
  | .ok (researcher_id, coll', data') =>
      let data2 := dictSet data' "_id" (.str researcher_id)
      let (_, graph') :=
        Neo4jRepository.create_researcher_node w.neo4jUp w.graph data2
      let w1 := { w with researchers := coll', graph := graph' }
      if dictHas data2 "collaboration_metrics" then
        match dictGet data2 "collaboration_metrics" with
        | some (.obj m) =>
            match createStats m with
            | some stats =>
                let (_, r1) := RedisRepository.update_researcher_stats
                  w.redisUp w.redis researcher_id stats
                let (_, r2) := RedisRepository.cache_researcher_profile
                  w.redisUp r1 researcher_id data2 1800
                (.ok researcher_id, { w1 with redis := r2 })
            | none => (.error "KeyError", w1)
        | _ => (.error "TypeError", w1)
      else
        let (_, r2) := RedisRepository.cache_researcher_profile
          w.redisUp w.redis researcher_id data2 1800
        (.ok researcher_id, { w1 with redis := r2 })

/-- The statistics mapping built by update_researcher_comprehensive: each of
the three fields is copied only when present (membership-tested). -/
def updateStats (m : Dict) : List (String × String) :=
  (match dictGet m "total_publications" with
   | some p => [("publications_count", valToString p)]
   | none => []) ++
  (match dictGet m "h_index" with
   | some h => [("h_index", valToString h)]
   | none => []) ++
  (match dictGet m "collaboration_score" with
   | some c => [("collaboration_score", valToString c)]
   | none => [])

/-- ResearchDatabaseManager.update_researcher_comprehensive
(database_manager.py lines 116 to 148): MongoDB partial update (whose
boolean is the value returned), best-effort Neo4j mirror of the recognised
fields, cache invalidation by deletion of both keys, then a fresh write of
the statistics hash when the update carries metric fields.  A TypeError
while the facade reads a scalar metrics block escapes (kept state as
mutated so far). -/
def update_researcher_comprehensive (w : World) (now : Nat)
    (researcher_id : String) (update_data : Dict) :
    Except String Bool × World :=
  let (success, coll', updMut) := MongoDBRepository.update_researcher
    w.mongoUp now w.researchers researcher_id update_data
  let (_, graph') := Neo4jRepository.update_researcher_node
    w.neo4jUp w.graph researcher_id updMut
  let (_, r1) := RedisRepository.invalidate_researcher_cache
    w.redisUp w.redis researcher_id
  let w1 := { w with researchers := coll', graph := graph', redis := r1 }
  if dictHas updMut "collaboration_metrics" then
    match dictGet updMut "collaboration_metrics" with
    | some (.obj m) =>
        let stats := updateStats m
        if stats.isEmpty then (.ok success, w1)
        else
          let (_, r2) := RedisRepository.update_researcher_stats
            w.redisUp r1 researcher_id stats
          (.ok success, { w1 with redis := r2 })
    | _ => (.error "TypeError", w1)
  else (.ok success, w1)

/-- ResearchDatabaseManager.delete_researcher_comprehensive
(database_manager.py lines 185 to 202): MongoDB delete (whose boolean is
the value returned), Neo4j DETACH DELETE, cache invalidation; every
sub-step catches its own store failure, and the facade catches anything
else, so the operation never raises. -/
def delete_researcher_comprehensive (w : World) (researcher_id : String) :
    Bool × World :=
  let (mongo_success, coll') := MongoDBRepository.delete_researcher
    w.mongoUp w.researchers researcher_id
  let (_, graph') := Neo4jRepository.delete_researcher_node
    w.neo4jUp w.graph researcher_id
  let (_, r1) := RedisRepository.invalidate_researcher_cache
    w.redisUp w.redis researcher_id
  (mongo_success, { w with researchers := coll', graph := graph', redis := r1 })

end ResearchDatabaseManager

/-- The aggregated profile object built by the complete-profile read
(query_engine.py lines 28 to 111): base entity fields, the collaboration
network section, the publications section with derived counts, the
projects section, and the cache-status flag. -/
structure Profile where
  researcher_id : String
  basic_info : Val
  academic_profile : Val
  research_interests : Val
  collaboration_metrics : Val
  collaborators : List Dict
  collaboration_count : Nat
  network_depth : Nat
  publications : List Dict
  publications_count : Nat
  total_citations : Int
  projects : List Dict
  projects_count : Nat
  cache_status : String

/-- Result of the complete-profile read: the error dictionary
{"error": msg} or the profile object. -/
inductive ProfileOut where
  | err (msg : String) : ProfileOut
  | ok (p : Profile) : ProfileOut

namespace ResearchQueryEngine

/-- Whether a publication document matches the Mongo filter
{"authors.researcher_id": rid}: the dotted path traverses the authors
array (or a single embedded document) and compares the string id. -/
def pubMatches (pub : Dict) (rid : String) : Bool :=
  match dictGet pub "authors" with
  | some (.arr as) =>
      as.any fun a =>
        match a with
        | .obj ad =>
            match dictGet ad "researcher_id" with
            | some (.str s) => s == rid
            | _ => false
        | _ => false
  | some (.obj ad) =>
      match dictGet ad "researcher_id" with
      | some (.str s) => s == rid
      | _ => false
  | _ => false

/-- One processed publication entry (query_engine.py lines 84 to 91). -/
def pubEntry (pub : Dict) (author : Dict) : Dict :=
  [("publication_id", dictGetD pub "_id" .null),
   ("title", dictGetD pub "title" .null),
   ("bibliographic_info", dictGetD pub "bibliographic_info" (.obj [])),
   ("author_order", dictGetD author "author_order" .null),
   ("contribution", dictGetD author "contribution" .null),
   ("metrics", dictGetD pub "metrics" (.obj []))]

/-- Scan of the author elements of one publication: one entry per author
element naming the researcher.  A non-document author element raises
AttributeError in Python (caught by the aggregator's outer handler),
modelled as an error. -/
def authorScan (pub : Dict) (rid : String) :
    List Val → Except String (List Dict)
  | [] => .ok []
  | .obj ad :: rest =>
      match authorScan pub rid rest with
      | .error e => .error e
      | .ok es =>
          if (match dictGet ad "researcher_id" with
              | some (.str s) => s == rid
              | _ => false) then
            .ok (pubEntry pub ad :: es)
          else .ok es
  | _ :: _ => .error "AttributeError"

/-- The per-author scan of one publication (query_engine.py lines 81 to
91), over pub.get("authors", []). -/
def pubEntriesOf (pub : Dict) (rid : String) : Except String (List Dict) :=
  match dictGetD pub "authors" (.arr []) with
  | .arr as => authorScan pub rid as
  | _ => .error "TypeError"

/-- Citation count of one processed entry: entry["metrics"].get
("citation_count", 0).  A non-document metrics value raises
AttributeError; a non-numeric count makes the running sum raise
TypeError. -/
def citationsOf (entry : Dict) : Except String Int :=
  match dictGet entry "metrics" with
  | some (.obj m) =>
      match dictGet m "citation_count" with
      | some (.num n) => .ok n
      | none => .ok 0
      | some _ => .error "TypeError"
  | _ => .error "AttributeError"

/-- Sum of the citation counts of the processed entries. -/
def totalCitations : List Dict → Except String Int
  | [] => .ok 0
  | e :: es =>
      match citationsOf e, totalCitations es with
      | .ok n, .ok m => .ok (n + m)
      | .error msg, _ => .error msg
      | _, .error msg => .error msg

/-- Concatenation of the per-author entry scans over the matched
publications, stopping at the first Python exception. -/
def collectEntries (rid : String) : List Dict → Except String (List Dict)
  | [] => .ok []
  | pub :: rest =>
      match pubEntriesOf pub rid, collectEntries rid rest with
      | .ok es, .ok tail => .ok (es ++ tail)
      | .error e, _ => .error e
      | _, .error e => .error e

/-- The publications section of the profile (query_engine.py lines 74 to
97): find_documents("publications", {"authors.researcher_id": rid})
(returned documents have their _id normalised to a string), then the
per-author entry scan and the citation sum. -/
def pubSection (publications : List Dict) (rid : String) :
    Except String (List Dict × Int) :=
  let found := (publications.filter (pubMatches · rid)).map
    MongoDBRepository.convertIdStr
  match collectEntries rid found with
  | .error e => .error e
  | .ok entries =>
      match totalCitations entries with
      | .error e => .error e
      | .ok cits => .ok (entries, cits)

/-- Whether one participant group of a project references the researcher:
the dotted path participants.<group>.researcher_id traverses the group
array (or a single embedded document). -/
def groupMatches (participants : Dict) (group : String) (rid : String) : Bool :=
  match dictGet participants group with
  | some (.arr xs) =>
      xs.any fun x =>
        match x with
        | .obj xd =>
            match dictGet xd "researcher_id" with
            | some (.str s) => s == rid
            | _ => false
        | _ => false
  | some (.obj xd) =>
      match dictGet xd "researcher_id" with
      | some (.str s) => s == rid
      | _ => false
  | _ => false

/-- Whether a project matches the $or filter over the three participant
paths (query_engine.py lines 100 to 106). -/
def projectMatches (proj : Dict) (rid : String) : Bool :=
  match dictGet proj "participants" with
  | some (.obj p) =>
      groupMatches p "principal_investigators" rid ||
      groupMatches p "co_investigators" rid ||
      groupMatches p "research_assistants" rid
  | _ => false

/-- The projects section: find_documents("projects", ...) with the $or
participant filter, ids normalised to strings. -/
def projectsFor (projects : List Dict) (rid : String) : List Dict :=
  (projects.filter (projectMatches · rid)).map MongoDBRepository.convertIdStr

/-- Assembly of the profile object from the base entity data (cached body
on a hit, document-store body on a miss) and fresh graph and document
store queries (query_engine.py lines 60 to 113). -/
def mkProfile (w : World) (rid : String) (rdata : Dict) (cs : String) :
    Except String Profile :=
  let collaborators :=
    Neo4jRepository.find_collaborators w.neo4jUp w.graph rid
  match pubSection w.publications rid with
  | .error e => .error e
  | .ok (entries, cits) =>
      let projs := projectsFor w.projects rid
      .ok { researcher_id := rid
            basic_info := dictGetD rdata "personal_info" (.obj [])
            academic_profile := dictGetD rdata "academic_profile" (.obj [])
            research_interests := dictGetD rdata "research_interests" (.arr [])
            collaboration_metrics :=
              dictGetD rdata "collaboration_metrics" (.obj [])
            collaborators := collaborators
            collaboration_count := collaborators.length
            network_depth := 2
            publications := entries
            publications_count := entries.length
            total_citations := cits
            projects := projs
            projects_count := projs.length
            cache_status := cs }

/-- ResearchQueryEngine.get_researcher_profile_complete (query_engine.py
lines 25 to 117): cache-aside read of the base entity (hit: cached body,
status hit; miss: document-store read, not-found error when absent, else
cache write with TTL 1800 and status miss), then fresh graph and document
store queries for the collaboration, publications and projects sections.
An exception inside the aggregation is caught by the outer handler and
returned as an error dictionary, keeping the cache write. -/
def get_researcher_profile_complete (w : World) (researcher_id : String) :
    ProfileOut × World :=
  match RedisRepository.get_cached_researcher_profile
      w.redisUp w.redis researcher_id with
  | some cached =>
      match mkProfile w researcher_id cached "hit" with
      | .ok p => (.ok p, w)
      | .error e => (.err e, w)
  | none =>
      match MongoDBRepository.get_researcher w.researchers researcher_id with
      | none => (.err "Researcher not found", w)
      | some mongo_profile =>
          let (_, redis') := RedisRepository.cache_researcher_profile
            w.redisUp w.redis researcher_id mongo_profile 1800
          let w' := { w with redis := redis' }
          match mkProfile w researcher_id mongo_profile "miss" with
          | .ok p => (.ok p, w')
          | .error e => (.err e, w')

end ResearchQueryEngine

/-- Python s.strip() on the character list: drop leading and trailing
whitespace. -/
def trimChars (s : List Char) : List Char :=
  ((s.dropWhile Char.isWhitespace).reverse.dropWhile Char.isWhitespace).reverse

/-- Python s.split() (no separator): runs of non-whitespace characters,
with leading, trailing and repeated whitespace discarded.  `acc` is the
current word, reversed. -/
def splitWsAux : List Char → List Char → List (List Char)
  | [], acc => if acc.isEmpty then [] else [acc.reverse]
  | c :: cs, acc =>
      if c.isWhitespace then
        if acc.isEmpty then splitWsAux cs []
        else acc.reverse :: splitWsAux cs []
      else splitWsAux cs (c :: acc)

/-- Python name_query.strip(). -/
def pyStrip (s : String) : String :=
  String.mk (trimChars s.data)

/-- Python name_query.split(). -/
def pySplit (s : String) : List String :=
  (splitWsAux s.data []).map String.mk

/-- Whether the needle occurs at the start of the haystack. -/
def startsWithChars : List Char → List Char → Bool
  | [], _ => true
  | _ :: _, [] => false
  | a :: as, b :: bs => a == b && startsWithChars as bs

/-- Whether the needle occurs anywhere in the haystack. -/
def containsChars (n : List Char) : List Char → Bool
  | [] => startsWithChars n []
  | c :: cs => startsWithChars n (c :: cs) || containsChars n cs

/-- Semantics of {"$regex": tok, "$options": "i"} against a string field
for the literal tokens this engine passes (no regex metacharacters in a
personal-name token): case-insensitive substring containment. -/
def tokMatch (tok s : String) : Bool :=
  containsChars (tok.data.map Char.toLower) (s.data.map Char.toLower)

/-- A MongoDB filter document over researcher records, as built by the
search criteria translation: a {path: {$regex: tok, $options: i}} leaf, a
two-element $or array, or an $and array (given as a cons chain mirroring
the JSON array). -/
inductive MFilter where
  | regexOn (path tok : String) : MFilter
  | orPair (q1 q2 : MFilter) : MFilter
  | andNil : MFilter
  | andCons (q rest : MFilter) : MFilter

/-- The $and array holding the given conditions. -/
def andOfList (qs : List MFilter) : MFilter :=
  qs.foldr .andCons .andNil

/-- Value at a dotted path inside a document. -/
def pathGet (d : Dict) : List String → Option Val
  | [] => none
  | [k] => dictGet d k
  | k :: rest =>
      match dictGet d k with
      | some (.obj o) => pathGet o rest
      | _ => none

/-- Whether a regex leaf holds of a researcher document. -/
def regexHolds (path tok : String) (doc : Dict) : Bool :=
  match pathGet doc (path.splitOn ".") with
  | some (.str s) => tokMatch tok s
  | _ => false

/-- Evaluation of a filter document against a researcher document. -/
def holdsF : MFilter → Dict → Bool
  | .regexOn path tok, doc => regexHolds path tok doc
  | .orPair q1 q2, doc => holdsF q1 doc || holdsF q2 doc
  | .andNil, _ => true
  | .andCons q rest, doc => holdsF q doc && holdsF rest doc

/-- The per-token condition of the name search: the token matches the first
name or the last name. -/
def orPairOf (tok : String) : MFilter :=
  .orPair (.regexOn "personal_info.first_name" tok)
          (.regexOn "personal_info.last_name" tok)

namespace ResearchQueryEngine

/-- The name-search branch of search_researchers_advanced (query_engine.py
lines 156 to 182) and of _find_researchers_by_name (lines 569 to 591):
strip the query, tokenize on whitespace; more than one token builds an
$and of per-token first-or-last $or conditions; otherwise a single $or on
the stripped query. -/
def buildNameQuery (name_search : String) : MFilter :=
  let name_query := pyStrip name_search
  let tokens := pySplit name_query
  if tokens.length > 1 then
    andOfList (tokens.map orPairOf)
  else
    orPairOf name_query

end ResearchQueryEngine

/-- The strength of the CO_AUTHORED_WITH edge joining an unordered pair of
researcher ids, if one exists. -/
def strengthBetween (g : Graph) (x y : String) : Option Nat :=
  match g.edges.find? (edgeJoins · x y) with
  | some e => some e.strength
  | none => none

/-- The graph obtained from an empty graph by n add_collaboration calls on
the same pair (the repeated-collaboration scenario of the spec). -/
def collabChain (a b : String) : Nat → Graph
  | 0 => ⟨[], []⟩
  | n + 1 => (Neo4jRepository.add_collaboration true (collabChain a b n) a b).2

/-- The world of the repeated-collaboration scenario: researcher a on
record in the document store, the n-fold collaboration graph, an empty
cache, and all stores available. -/
def scenarioWorld (a b : String) (n : Nat) : World :=
  { researchers := [[("_id", .str a)]]
    publications := []
    projects := []
    graph := collabChain a b n
    redis := ⟨[], []⟩
    mongoUp := true, neo4jUp := true, redisUp := true }

/-- Shape condition under which create_researcher_comprehensive reads the
metrics block without a Python KeyError or TypeError: when
collaboration_metrics is present it is a document carrying the three
metric fields the facade indexes with brackets. -/
def metricsShapeOk (d : Dict) : Bool :=
  match dictGet d "collaboration_metrics" with
  | none => true
  | some (.obj m) =>
      (dictGet m "total_publications").isSome &&
      (dictGet m "h_index").isSome &&
      (dictGet m "collaboration_score").isSome
  | some _ => false

/-- Shape condition under which update_researcher_comprehensive reads the
metrics block without a Python TypeError: when collaboration_metrics is
present it is a document (its fields are membership-tested, so none is
required). -/
def metricsObjOk (d : Dict) : Bool :=
  match dictGet d "collaboration_metrics" with
  | none => true
  | some (.obj _) => true
  | some _ => false

/-- Example researcher body used to exercise the create orchestration. -/
def exCreateData : Dict :=
  [("personal_info", .obj [("first_name", .str "Ada"),
                           ("last_name", .str "Lovelace"),
                           ("email", .str "ada@ex.org")]),
   ("academic_profile", .obj [("department_id", .str "dept_cs"),
                              ("position", .str "professor")]),
   ("collaboration_metrics", .obj [("total_publications", .num 3),
                                   ("h_index", .num 2),
                                   ("collaboration_score", .num 7)])]

/-- Example world for the create orchestration: document store up, graph
and cache stores down (the degraded-secondary case). -/
def exCreateWorld : World :=
  { researchers := [], publications := [], projects := []
    graph := ⟨[], []⟩, redis := ⟨[], []⟩
    mongoUp := true, neo4jUp := false, redisUp := false }

/-- Example world for the complete-profile read: a cached body for r1
(differing from the stored document), one publication and one project
referencing r1, and a one-edge graph. -/
def exReadWorld : World :=
  { researchers :=
      [[("_id", .str "r1"),
        ("personal_info", .obj [("first_name", .str "Ada")])],
       [("_id", .str "r2")]]
    publications :=
      [[("_id", .str "p1"), ("title", .str "T"),
        ("authors", .arr [.obj [("researcher_id", .str "r1"),
                                ("author_order", .num 1)]]),
        ("metrics", .obj [("citation_count", .num 4)])]]
    projects :=
      [[("_id", .str "j1"),
        ("participants", .obj [("principal_investigators",
          .arr [.obj [("researcher_id", .str "r1")]])])]]
    graph := ⟨[[("id", .str "r1")], [("id", .str "r2")]],
              [⟨"r1", "r2", 1⟩]⟩
    redis := ⟨[("r1", ([("personal_info", .obj [("first_name", .str "Cached")])], 1800))], []⟩
    mongoUp := true, neo4jUp := true, redisUp := true }

/-- Example world for the update orchestration: one researcher document,
its graph node, and both cache entries populated. -/
def exUpdateWorld : World :=
  { researchers :=
      [[("_id", .str "r1"),
        ("metadata", .obj [("last_updated", .time 0)])]]
    publications := [], projects := []
    graph := ⟨[[("id", .str "r1")]], []⟩
    redis := ⟨[("r1", ([("personal_info", .obj [])], 1800))],
              [("r1", ([("h_index", "1")], 3600))]⟩
    mongoUp := true, neo4jUp := true, redisUp := true }

/-- Example update body carrying a metric field. -/
def exUpdateData : Dict :=
  [("collaboration_metrics", .obj [("h_index", .num 5)])]

/-- Example store for the identifier-format edge case: the record is keyed
by a legacy ObjectId whose hex rendering is the 24-character identifier
the caller presents. -/
def exOidColl : List Dict :=
  [[("_id", .oid "0123456789abcdef01234567"), ("x", .num 1)]]

/-- The 24-character hexadecimal identifier of the edge case. -/
def exOidStr : String := "0123456789abcdef01234567"

theorem dictGet_dictSet_self (d : Dict) (k : String) (v : Val) :
    dictGet (dictSet d k v) k = some v := by
  induction d with
  | nil => simp [dictSet, dictGet]
  | cons kv rest ih =>
      by_cases h : kv.1 = k
      · simp [dictSet, dictGet, h]
      · simp [dictSet, dictGet, h, ih]

theorem dictGet_dictSet_ne (d : Dict) (k k' : String) (v : Val)
    (h : k ≠ k') : dictGet (dictSet d k v) k' = dictGet d k' := by
  induction d with
  | nil => simp [dictSet, dictGet, h]
  | cons kv rest ih =>
      by_cases hk : kv.1 = k
      · simp [dictSet, dictGet, hk, h]
      · by_cases hk' : kv.1 = k'
        · simp [dictSet, dictGet, hk, hk', Ne.symm h]
        · simp [dictSet, dictGet, hk, hk', ih]

theorem assocGet_assocSet_self {β : Type} (l : List (String × β))
    (k : String) (v : β) : assocGet (assocSet l k v) k = some v := by
  induction l with
  | nil => simp [assocSet, assocGet]
  | cons kv rest ih =>
      by_cases h : kv.1 = k
      · simp [assocSet, assocGet, h]
      · simp [assocSet, assocGet, h, ih]

theorem assocGet_assocDel_self {β : Type} (l : List (String × β))
    (k : String) : assocGet (assocDel l k) k = none := by
  induction l with
  | nil => simp [assocDel, assocGet]
  | cons kv rest ih =>
      by_cases h : kv.1 = k
      · simpa [assocDel, assocGet, h] using ih
      · simpa [assocDel, assocGet, h] using ih

theorem holdsF_andOfList (qs : List MFilter) (doc : Dict) :
    holdsF (andOfList qs) doc = qs.all (holdsF · doc) := by
  induction qs with
  | nil => simp [andOfList, holdsF]
  | cons q rest ih =>
      simp [andOfList, holdsF, List.all_cons] at ih ⊢
      simp [ih]

theorem updateOne_fst (coll : List Dict) (rid : String) (upd : Dict) :
    (MongoDBRepository.updateOne coll rid upd).1 =
      (if coll.any (strIdMatch · rid) then 1 else 0) := by
  induction coll with
  | nil => simp [MongoDBRepository.updateOne]
  | cons d ds ih =>
      by_cases h : strIdMatch d rid
      · simp [MongoDBRepository.updateOne, h]
      · simp [MongoDBRepository.updateOne, h, ih]

theorem deleteOne_fst (coll : List Dict) (rid : String) :
    (MongoDBRepository.deleteOne coll rid).1 =
      (if coll.any (strIdMatch · rid) then 1 else 0) := by
  induction coll with
  | nil => simp [MongoDBRepository.deleteOne]
  | cons d ds ih =>
      by_cases h : strIdMatch d rid
      · simp [MongoDBRepository.deleteOne, h]
      · simp [MongoDBRepository.deleteOne, h, ih]

theorem updateOne_mem_of_no_match (coll : List Dict) (rid : String)
    (upd : Dict) (d : Dict) (hd : d ∈ coll)
    (hm : strIdMatch d rid = false) :
    d ∈ (MongoDBRepository.updateOne coll rid upd).2 := by
  induction coll with
  | nil => cases hd
  | cons e es ih =>
      by_cases h : strIdMatch e rid
      · rcases List.mem_cons.mp hd with rfl | hmem
        · simp_all
        · simp [MongoDBRepository.updateOne, h, hmem]
      · rcases List.mem_cons.mp hd with rfl | hmem
        · simp [MongoDBRepository.updateOne, h]
        · simp [MongoDBRepository.updateOne, h, ih hmem]

theorem deleteOne_mem_of_no_match (coll : List Dict) (rid : String)
    (d : Dict) (hd : d ∈ coll) (hm : strIdMatch d rid = false) :
    d ∈ (MongoDBRepository.deleteOne coll rid).2 := by
  induction coll with
  | nil => cases hd
  | cons e es ih =>
      by_cases h : strIdMatch e rid
      · rcases List.mem_cons.mp hd with rfl | hmem
        · simp_all
        · simp [MongoDBRepository.deleteOne, h, hmem]
      · rcases List.mem_cons.mp hd with rfl | hmem
        · simp [MongoDBRepository.deleteOne, h]
        · simp [MongoDBRepository.deleteOne, h, ih hmem]

theorem dropWhile_append_all_pos (p : Char → Bool) (l m : List Char)
    (h : ∀ c ∈ l, p c = true) : (l ++ m).dropWhile p = m.dropWhile p := by
  induction l with
  | nil => simp
  | cons c cs ih =>
      have hc := h c (List.mem_cons_self c cs)
      simp only [List.cons_append, List.dropWhile_cons, hc, if_true]
      exact ih (fun d hd => h d (List.mem_cons_of_mem c hd))

theorem dropWhile_eq_self_of_all_neg (p : Char → Bool) (l : List Char)
    (h : ∀ c ∈ l, p c = false) : l.dropWhile p = l := by
  induction l with
  | nil => simp
  | cons c cs ih =>
      have hc := h c (List.mem_cons_self c cs)
      simp only [List.dropWhile_cons, hc]
      simp

theorem splitWsAux_ne_nil (s : List Char) :
    ∀ acc : List Char, acc ≠ [] → splitWsAux s acc ≠ [] := by
  induction s with
  | nil => intro acc h; simp [splitWsAux, List.isEmpty_iff, h]
  | cons c cs ih =>
      intro acc h
      by_cases hw : c.isWhitespace
      · simp [splitWsAux, hw, List.isEmpty_iff, h]
      · simpa [splitWsAux, hw] using ih (c :: acc) (by simp)

theorem splitWsAux_nil_eq_nil (s : List Char) (h : splitWsAux s [] = []) :
    ∀ c ∈ s, c.isWhitespace = true := by
  induction s with
  | nil => simp
  | cons c cs ih =>
      by_cases hw : c.isWhitespace
      · intro d hd
        rcases List.mem_cons.mp hd with rfl | hm
        · exact hw
        · exact ih (by simpa [splitWsAux, hw] using h) d hm
      · exact absurd (by simpa [splitWsAux, hw] using h)
          (splitWsAux_ne_nil cs [c] (by simp))

theorem splitWsAux_single (s : List Char) :
    ∀ acc w : List Char, acc ≠ [] → splitWsAux s acc = [w] →
    w = acc.reverse ++ s.takeWhile (fun c => !c.isWhitespace) ∧
    ∀ c ∈ s.dropWhile (fun c => !c.isWhitespace), c.isWhitespace = true := by
  induction s with
  | nil =>
      intro acc w h hx
      simp [splitWsAux, List.isEmpty_iff, h] at hx
      simp [hx]
  | cons c cs ih =>
      intro acc w h hx
      by_cases hw : c.isWhitespace
      · have hx' : acc.reverse = w ∧ splitWsAux cs [] = [] := by
          simpa [splitWsAux, hw, List.isEmpty_iff, h] using hx
        obtain ⟨hw1, hw2⟩ := hx'
        refine ⟨by simp [List.takeWhile_cons, hw, hw1], ?_⟩
        intro d hd
        simp only [List.dropWhile_cons, hw, Bool.not_true, if_neg] at hd
        · rcases List.mem_cons.mp hd with rfl | hm
          · exact hw
          · exact splitWsAux_nil_eq_nil cs hw2 d hm
      · have hx' : splitWsAux cs (c :: acc) = [w] := by
          simpa [splitWsAux, hw] using hx
        obtain ⟨h1, h2⟩ := ih (c :: acc) w (by simp) hx'
        refine ⟨?_, ?_⟩
        · simp only [List.takeWhile_cons, hw, Bool.not_false, if_pos]
          · simpa using h1
        · simpa [List.dropWhile_cons, hw] using h2

theorem splitWs_single_trim (s w : List Char)
    (h : splitWsAux s [] = [w]) : trimChars s = w := by
  induction s with
  | nil => simp [splitWsAux] at h
  | cons c cs ih =>
      by_cases hw : c.isWhitespace
      · have h' : splitWsAux cs [] = [w] := by simpa [splitWsAux, hw] using h
        rw [← ih h']
        simp [trimChars, List.dropWhile_cons, hw]
      · have h' : splitWsAux cs [c] = [w] := by simpa [splitWsAux, hw] using h
        obtain ⟨h1, h2⟩ := splitWsAux_single cs [c] w (by simp) h'
        have hcs := (List.takeWhile_append_dropWhile
          (p := fun c => !c.isWhitespace) (l := cs)).symm
        have hallneg : ∀ d ∈ (cs.takeWhile (fun c => !c.isWhitespace)).reverse
            ++ [c], d.isWhitespace = false := by
          intro d hd
          rcases List.mem_append.mp hd with hm | hm
          · have := List.mem_takeWhile_imp (List.mem_reverse.mp hm)
            simpa using this
          · rcases List.mem_singleton.mp hm with rfl
            simpa using hw
        have hallpos : ∀ d ∈ (cs.dropWhile (fun c => !c.isWhitespace)).reverse,
            d.isWhitespace = true := by
          intro d hd
          exact h2 d (List.mem_reverse.mp hd)
        calc trimChars (c :: cs)
            = (((c :: cs).dropWhile Char.isWhitespace).reverse.dropWhile
                Char.isWhitespace).reverse := rfl
          _ = ((c :: cs).reverse.dropWhile Char.isWhitespace).reverse := by
                simp [List.dropWhile_cons, hw]
          _ = ((cs.reverse ++ [c]).dropWhile Char.isWhitespace).reverse := by
                simp
          _ = w := by
                conv_lhs => rw [hcs]
                rw [List.reverse_append, List.append_assoc,
                  dropWhile_append_all_pos _ _ _ hallpos,
                  dropWhile_eq_self_of_all_neg _ _ hallneg]
                simp [h1]

/-- C10: every document-store partial update, for researchers, projects and
publications alike, adds a fresh metadata.last_updated timestamp to the
$set document it issues, by mutating the caller-supplied update dictionary
before the store update; the mutated dictionary (which is exactly the set
of fields written) therefore always carries the fresh timestamp. -/
theorem update_always_stamps_last_updated :
    ∀ (up : Bool) (now : Nat) (coll : List Dict) (rid : String) (upd : Dict),
      ((MongoDBRepository.update_researcher up now coll rid upd).2.2 =
          dictSet upd "metadata.last_updated" (.time now) ∧
        dictGet (MongoDBRepository.update_researcher up now coll rid upd).2.2
          "metadata.last_updated" = some (.time now)) ∧
      ((MongoDBRepository.update_project up now coll rid upd).2.2 =
          dictSet upd "metadata.last_updated" (.time now) ∧
        dictGet (MongoDBRepository.update_project up now coll rid upd).2.2
          "metadata.last_updated" = some (.time now)) ∧
      ((MongoDBRepository.update_publication up now coll rid upd).2.2 =
          dictSet upd "metadata.last_updated" (.time now) ∧
        dictGet (MongoDBRepository.update_publication up now coll rid upd).2.2
          "metadata.last_updated" = some (.time now)) := by
  intro up now coll rid upd
  cases up <;>
    simp [MongoDBRepository.update_researcher, MongoDBRepository.update_project,
      MongoDBRepository.update_publication, dictGet_dictSet_self]

/-- C7 counterexample: with the record keyed by the legacy ObjectId form of
a 24-character hexadecimal identifier, the read path finds it through the
secondary lookup, but the update and delete mutations (whose primary
string lookup misses) attempt no ObjectId conversion: they touch nothing
and report failure.  The claim, which asserts the secondary lookup for
reads and mutations alike, is therefore false at this input. -/
theorem objectid_fallback_mutation_counterexample :
    MongoDBRepository.get_researcher exOidColl exOidStr =
      some [("_id", .str exOidStr), ("x", .num 1)] ∧
    (MongoDBRepository.update_researcher true 7 exOidColl exOidStr
        [("y", .num 2)]).1 = false ∧
    (MongoDBRepository.update_researcher true 7 exOidColl exOidStr
        [("y", .num 2)]).2.1 = exOidColl ∧
    (MongoDBRepository.delete_researcher true exOidColl exOidStr).1 = false ∧
    (MongoDBRepository.delete_researcher true exOidColl exOidStr).2 = exOidColl :=
  ⟨rfl, rfl, rfl, rfl, rfl⟩

/-- C7 amended: the secondary ObjectId lookup on a 24-character hexadecimal
identifier applies to the read path only: get_researcher falls back to the
ObjectId-keyed lookup when the primary string lookup misses, while the
update and delete mutations match solely on the string identifier, so
when no document is string-keyed by it they report failure and leave
every document in place. -/
theorem objectid_fallback_reads_only :
    (∀ (coll : List Dict) (rid : String), rid ≠ "" →
      MongoDBRepository.findOne coll (.str rid) = none →
      isHex24 rid = true →
      MongoDBRepository.get_researcher coll rid =
        (MongoDBRepository.findOne coll (.oid rid)).map
          MongoDBRepository.convertIdStr) ∧
    (∀ (up : Bool) (now : Nat) (coll : List Dict) (rid : String) (upd : Dict),
      (∀ d ∈ coll, strIdMatch d rid = false) →
      (MongoDBRepository.update_researcher up now coll rid upd).1 = false ∧
      ∀ d ∈ coll,
        d ∈ (MongoDBRepository.update_researcher up now coll rid upd).2.1) ∧
    (∀ (up : Bool) (coll : List Dict) (rid : String),
      (∀ d ∈ coll, strIdMatch d rid = false) →
      (MongoDBRepository.delete_researcher up coll rid).1 = false ∧
      ∀ d ∈ coll, d ∈ (MongoDBRepository.delete_researcher up coll rid).2) := by
  refine ⟨?_, ?_, ?_⟩
  · intro coll rid hne hmiss hhex
    simp only [MongoDBRepository.get_researcher, if_neg hne, hmiss, hhex,
      if_true]
    cases MongoDBRepository.findOne coll (.oid rid) <;> rfl
  · intro up now coll rid upd h
    have hany : coll.any (strIdMatch · rid) = false :=
      List.any_eq_false.mpr (by intro d hd; simp [h d hd])
    cases up with
    | false =>
        exact ⟨rfl, fun d hd => by
          simpa [MongoDBRepository.update_researcher] using hd⟩
    | true =>
        constructor
        · simp [MongoDBRepository.update_researcher, updateOne_fst, hany]
        · intro d hd
          simpa [MongoDBRepository.update_researcher] using
            updateOne_mem_of_no_match coll rid _ d hd (h d hd)
  · intro up coll rid h
    have hany : coll.any (strIdMatch · rid) = false :=
      List.any_eq_false.mpr (by intro d hd; simp [h d hd])
    cases up with
    | false =>
        exact ⟨rfl, fun d hd => by
          simpa [MongoDBRepository.delete_researcher] using hd⟩
    | true =>
        constructor
        · simp [MongoDBRepository.delete_researcher, deleteOne_fst, hany]
        · intro d hd
          simpa [MongoDBRepository.delete_researcher] using
            deleteOne_mem_of_no_match coll rid d hd (h d hd)

/-- C7 amended witness: concrete instances of the three parts, at the
ObjectId-keyed store of the counterexample. -/
theorem objectid_fallback_reads_only_witness :
    MongoDBRepository.get_researcher exOidColl exOidStr =
      (MongoDBRepository.findOne exOidColl (.oid exOidStr)).map
        MongoDBRepository.convertIdStr ∧
    (MongoDBRepository.update_researcher true 7 exOidColl exOidStr
        [("y", .num 2)]).1 = false ∧
    (MongoDBRepository.delete_researcher true exOidColl exOidStr).1 = false := by
  have hmatch : ∀ d ∈ exOidColl, strIdMatch d exOidStr = false := by
    intro d hd
    rcases List.mem_singleton.mp hd with rfl
    rfl
  exact ⟨objectid_fallback_reads_only.1 exOidColl exOidStr (by decide) rfl
      (by decide),
    (objectid_fallback_reads_only.2.1 true 7 exOidColl exOidStr
      [("y", .num 2)] hmatch).1,
    (objectid_fallback_reads_only.2.2 true exOidColl exOidStr hmatch).1⟩

theorem update_researcher_mutated (up : Bool) (now : Nat) (coll : List Dict)
    (rid : String) (upd : Dict) :
    (MongoDBRepository.update_researcher up now coll rid upd).2.2 =
      dictSet upd "metadata.last_updated" (.time now) := by
  cases up <;> simp [MongoDBRepository.update_researcher]

theorem update_researcher_fst (up : Bool) (now : Nat) (coll : List Dict)
    (rid : String) (upd : Dict) :
    (MongoDBRepository.update_researcher up now coll rid upd).1 =
      (up && coll.any (strIdMatch · rid)) := by
  cases up with
  | false => simp [MongoDBRepository.update_researcher]
  | true =>
      by_cases h : coll.any (strIdMatch · rid) <;>
        simp [MongoDBRepository.update_researcher, updateOne_fst, h]

theorem delete_researcher_fst (up : Bool) (coll : List Dict) (rid : String) :
    (MongoDBRepository.delete_researcher up coll rid).1 =
      (up && coll.any (strIdMatch · rid)) := by
  cases up with
  | false => simp [MongoDBRepository.delete_researcher]
  | true =>
      by_cases h : coll.any (strIdMatch · rid) <;>
        simp [MongoDBRepository.delete_researcher, deleteOne_fst, h]

theorem create_researcher_ok_shape (up : Bool) (now : Nat) (fid : String)
    (coll : List Dict) (data : Dict) (rid : String) (coll' : List Dict)
    (data' : Dict)
    (h : MongoDBRepository.create_researcher up now fid coll data =
      .ok (rid, coll', data')) :
    coll' = coll ++ [data'] ∧
    dictGet data' "collaboration_metrics" =
      dictGet data "collaboration_metrics" := by
  cases up with
  | false => simp [MongoDBRepository.create_researcher] at h
  | true =>
      simp only [MongoDBRepository.create_researcher] at h
      rw [if_neg (by decide : ¬(true = false))] at h
      split at h
      · split at h
        · cases h
        · simp only [Except.ok.injEq, Prod.mk.injEq] at h
          obtain ⟨-, h2, h3⟩ := h
          subst h3
          refine ⟨h2.symm, ?_⟩
          split
          · exact dictGet_dictSet_ne _ _ _ _ (by decide)
          · rw [dictGet_dictSet_ne _ _ _ _ (by decide),
              dictGet_dictSet_ne _ _ _ _ (by decide)]
      · simp only [Except.ok.injEq, Prod.mk.injEq] at h
        obtain ⟨-, h2, h3⟩ := h
        subst h3
        refine ⟨h2.symm, ?_⟩
        split
        · exact dictGet_dictSet_ne _ _ _ _ (by decide)
        · rw [dictGet_dictSet_ne _ _ _ _ (by decide),
            dictGet_dictSet_ne _ _ _ _ (by decide)]

theorem mkProfile_ok_fields (w : World) (rid : String) (rdata : Dict)
    (cs : String) (p : Profile)
    (h : ResearchQueryEngine.mkProfile w rid rdata cs = .ok p) :
    p.collaborators =
      Neo4jRepository.find_collaborators w.neo4jUp w.graph rid ∧
    p.collaboration_count =
      (Neo4jRepository.find_collaborators w.neo4jUp w.graph rid).length ∧
    ResearchQueryEngine.pubSection w.publications rid =
      .ok (p.publications, p.total_citations) ∧
    p.projects = ResearchQueryEngine.projectsFor w.projects rid ∧
    p.cache_status = cs ∧
    p.basic_info = dictGetD rdata "personal_info" (.obj []) := by
  unfold ResearchQueryEngine.mkProfile at h
  split at h
  · cases h
  · simp only [Except.ok.injEq] at h
    subst h
    simp_all

theorem dropWhile_dropWhile (p : Char → Bool) (l : List Char) :
    (l.dropWhile p).dropWhile p = l.dropWhile p := by
  induction l with
  | nil => simp
  | cons c cs ih =>
      by_cases h : p c
      · simp [List.dropWhile_cons, h, ih]
      · simp [List.dropWhile_cons, h]

theorem dropWhile_append_chars (p : Char → Bool) (l m : List Char) :
    (l ++ m).dropWhile p =
      if (l.dropWhile p).isEmpty then m.dropWhile p
      else l.dropWhile p ++ m := by
  induction l with
  | nil => simp
  | cons c cs ih =>
      by_cases h : p c
      · simp [List.dropWhile_cons, h, ih]
      · simp [List.dropWhile_cons, h]

theorem length_dropWhile_le_chars (p : Char → Bool) (l : List Char) :
    (l.dropWhile p).length ≤ l.length := by
  induction l with
  | nil => simp
  | cons c cs ih =>
      by_cases h : p c
      · simp only [List.dropWhile_cons, h, if_true]
        exact Nat.le_succ_of_le ih
      · simp [List.dropWhile_cons, h]

theorem dropWhile_reverse_trim (p : Char → Bool) (l : List Char)
    (h : l.dropWhile p = l) :
    ((l.reverse.dropWhile p).reverse).dropWhile p =
      (l.reverse.dropWhile p).reverse := by
  cases l with
  | nil => simp
  | cons c cs =>
      have hc : p c = false := by
        cases hpc : p c
        · rfl
        · exfalso
          rw [List.dropWhile_cons, if_pos hpc] at h
          have hle := length_dropWhile_le_chars p cs
          rw [h] at hle
          simp at hle
      rw [List.reverse_cons, dropWhile_append_chars]
      by_cases he : (cs.reverse.dropWhile p).isEmpty = true
      · rw [if_pos he]
        simp [List.dropWhile_cons, hc]
      · rw [if_neg he, List.reverse_append]
        simp [List.dropWhile_cons, hc]

theorem trimChars_idem (l : List Char) :
    trimChars (trimChars l) = trimChars l := by
  unfold trimChars
  rw [dropWhile_reverse_trim Char.isWhitespace (l.dropWhile Char.isWhitespace)
    (dropWhile_dropWhile _ _), List.reverse_reverse, dropWhile_dropWhile]

/-- C6: delete_researcher_comprehensive removes the string-keyed document,
detach-deletes every graph node carrying the id together with all incident
edges, deletes both cache entries for the id, and returns exactly whether
the document-store deletion removed a record; in particular a nonexistent
identifier yields false, and the operation is a total function (no
exception escapes). -/
theorem delete_comprehensive_spec :
    ∀ (w : World) (rid : String),
      ((ResearchDatabaseManager.delete_researcher_comprehensive w rid).1 = true ↔
        (w.mongoUp = true ∧ ∃ d ∈ w.researchers, strIdMatch d rid = true)) ∧
      (ResearchDatabaseManager.delete_researcher_comprehensive w rid).2.researchers =
        (MongoDBRepository.delete_researcher w.mongoUp w.researchers rid).2 ∧
      (w.neo4jUp = true →
        (ResearchDatabaseManager.delete_researcher_comprehensive w rid).2.graph =
          ⟨w.graph.nodes.filter (fun nd => !(nodeHasId nd rid)),
           w.graph.edges.filter (fun e => !(edgeTouches e rid))⟩) ∧
      (w.redisUp = true →
        assocGet (ResearchDatabaseManager.delete_researcher_comprehensive
          w rid).2.redis.profileCache rid = none ∧
        assocGet (ResearchDatabaseManager.delete_researcher_comprehensive
          w rid).2.redis.statsCache rid = none) := by
  intro w rid
  rcases hm : MongoDBRepository.delete_researcher w.mongoUp w.researchers rid
    with ⟨ms, coll'⟩
  rcases hn : Neo4jRepository.delete_researcher_node w.neo4jUp w.graph rid
    with ⟨ns, g'⟩
  rcases hr : RedisRepository.invalidate_researcher_cache w.redisUp w.redis rid
    with ⟨rs, r1⟩
  have hfst := delete_researcher_fst w.mongoUp w.researchers rid
  rw [hm] at hfst
  simp only at hfst
  refine ⟨?_, ?_, ?_, ?_⟩
  · simp only [ResearchDatabaseManager.delete_researcher_comprehensive, hm,
      hn, hr]
    rw [hfst]
    simp [List.any_eq_true]
  · simp [ResearchDatabaseManager.delete_researcher_comprehensive, hm, hn, hr]
  · intro hup
    have hn' := hn
    rw [hup] at hn'
    simp only [Neo4jRepository.delete_researcher_node] at hn'
    rw [if_neg (by decide : ¬(true = false))] at hn'
    simp only [Prod.mk.injEq] at hn'
    simp [ResearchDatabaseManager.delete_researcher_comprehensive, hm, hn, hr]
    exact hn'.2.symm
  · intro hup
    have hr' := hr
    rw [hup] at hr'
    simp only [RedisRepository.invalidate_researcher_cache] at hr'
    rw [if_neg (by decide : ¬(true = false))] at hr'
    simp only [Prod.mk.injEq] at hr'
    simp [ResearchDatabaseManager.delete_researcher_comprehensive, hm, hn, hr,
      ← hr'.2, assocGet_assocDel_self]

/-- C6 witness: the concrete instances of the delete cascade at a populated
world. -/
theorem delete_comprehensive_spec_witness :
    ((ResearchDatabaseManager.delete_researcher_comprehensive
        exUpdateWorld "r1").1 = true ↔
      (exUpdateWorld.mongoUp = true ∧
        ∃ d ∈ exUpdateWorld.researchers, strIdMatch d "r1" = true)) ∧
    (ResearchDatabaseManager.delete_researcher_comprehensive
        exUpdateWorld "r1").2.graph =
      ⟨exUpdateWorld.graph.nodes.filter (fun nd => !(nodeHasId nd "r1")),
       exUpdateWorld.graph.edges.filter (fun e => !(edgeTouches e "r1"))⟩ ∧
    assocGet (ResearchDatabaseManager.delete_researcher_comprehensive
      exUpdateWorld "r1").2.redis.profileCache "r1" = none ∧
    assocGet (ResearchDatabaseManager.delete_researcher_comprehensive
      exUpdateWorld "r1").2.redis.statsCache "r1" = none := by
  obtain ⟨h1, h2, h3, h4⟩ := delete_comprehensive_spec exUpdateWorld "r1"
  exact ⟨h1, h3 rfl, (h4 rfl).1, (h4 rfl).2⟩

theorem update_comprehensive_fst (w : World) (now : Nat) (rid : String)
    (upd : Dict) (hok : metricsObjOk upd = true) :
    (ResearchDatabaseManager.update_researcher_comprehensive w now rid upd).1 =
      .ok (MongoDBRepository.update_researcher w.mongoUp now w.researchers
        rid upd).1 := by
  rcases ht : MongoDBRepository.update_researcher w.mongoUp now w.researchers
    rid upd with ⟨s, c, u⟩
  rcases hn : Neo4jRepository.update_researcher_node w.neo4jUp w.graph rid u
    with ⟨b1, g'⟩
  rcases hr : RedisRepository.invalidate_researcher_cache w.redisUp w.redis rid
    with ⟨b2, r1⟩
  have hu : u = dictSet upd "metadata.last_updated" (.time now) := by
    have := update_researcher_mutated w.mongoUp now w.researchers rid upd
    rw [ht] at this
    exact this
  have hcm : dictGet u "collaboration_metrics" =
      dictGet upd "collaboration_metrics" := by
    rw [hu]
    exact dictGet_dictSet_ne _ _ _ _ (by decide)
  simp only [ResearchDatabaseManager.update_researcher_comprehensive, ht, hn,
    hr]
  unfold metricsObjOk at hok
  cases hgot : dictGet upd "collaboration_metrics" with
  | none =>
      have : dictHas u "collaboration_metrics" = false := by
        simp [dictHas, hcm, hgot]
      simp [this]
  | some v =>
      rw [hgot] at hok
      cases v with
      | obj m =>
          have hgotu : dictGet u "collaboration_metrics" = some (.obj m) :=
            hcm.trans hgot
          have hhas : dictHas u "collaboration_metrics" = true := by
            simp [dictHas, hgotu]
          rw [if_pos hhas]
          simp only [hgotu]
          by_cases he : (ResearchDatabaseManager.updateStats m).isEmpty = true
          · simp [he]
          · rcases hs : RedisRepository.update_researcher_stats w.redisUp r1
              rid (ResearchDatabaseManager.updateStats m) with ⟨b3, r2⟩
            simp [he, hs]
      | null => cases hok
      | str s' => cases hok
      | num n => cases hok
      | boolean b => cases hok
      | time t => cases hok
      | oid s' => cases hok
      | arr xs => cases hok

/-- C4: when the facade code itself raises nothing (the update body is
shape-correct), update_researcher_comprehensive returns exactly the
document-store boolean, that boolean says whether the string-keyed update
matched (hence, with its always-fresh timestamp, modified) at least one
record, and the graph-mirror step has no effect on the returned value. -/
theorem update_comprehensive_return :
    ∀ (w : World) (now : Nat) (rid : String) (upd : Dict),
      metricsObjOk upd = true →
      ((ResearchDatabaseManager.update_researcher_comprehensive
          w now rid upd).1 =
        .ok (MongoDBRepository.update_researcher w.mongoUp now w.researchers
          rid upd).1) ∧
      ((MongoDBRepository.update_researcher w.mongoUp now w.researchers
          rid upd).1 = true ↔
        (w.mongoUp = true ∧ ∃ d ∈ w.researchers, strIdMatch d rid = true)) ∧
      (∀ nu : Bool,
        (ResearchDatabaseManager.update_researcher_comprehensive
          { w with neo4jUp := nu } now rid upd).1 =
        (ResearchDatabaseManager.update_researcher_comprehensive
          w now rid upd).1) := by
  intro w now rid upd hok
  refine ⟨update_comprehensive_fst w now rid upd hok, ?_, ?_⟩
  · rw [update_researcher_fst]
    simp [List.any_eq_true]
  · intro nu
    rw [update_comprehensive_fst { w with neo4jUp := nu } now rid upd hok,
      update_comprehensive_fst w now rid upd hok]

/-- C4 witness: the facade return equals the document-store boolean at a
concrete world, and that boolean reflects the matched record. -/
theorem update_comprehensive_return_witness :
    ((ResearchDatabaseManager.update_researcher_comprehensive
        exUpdateWorld 5 "r1" exUpdateData).1 =
      .ok (MongoDBRepository.update_researcher exUpdateWorld.mongoUp 5
        exUpdateWorld.researchers "r1" exUpdateData).1) ∧
    ((MongoDBRepository.update_researcher exUpdateWorld.mongoUp 5
        exUpdateWorld.researchers "r1" exUpdateData).1 = true ↔
      (exUpdateWorld.mongoUp = true ∧
        ∃ d ∈ exUpdateWorld.researchers, strIdMatch d "r1" = true)) := by
  obtain ⟨h1, h2, h3⟩ :=
    update_comprehensive_return exUpdateWorld 5 "r1" exUpdateData rfl
  exact ⟨h1, h2⟩

/-- C5 counterexample: updating with a body that carries a metric field
leaves the statistics hash key populated when the operation completes (the
facade deletes both keys but then writes the statistics hash afresh), so
it is not the case that after completion every cache entry for the
identifier has been invalidated by deletion.  The full-profile key does
end up absent. -/
theorem update_cache_invalidation_counterexample :
    assocGet (ResearchDatabaseManager.update_researcher_comprehensive
      exUpdateWorld 7 "r1" exUpdateData).2.redis.statsCache "r1" =
      some ([("h_index", "5")], 3600) ∧
    assocGet (ResearchDatabaseManager.update_researcher_comprehensive
      exUpdateWorld 7 "r1" exUpdateData).2.redis.profileCache "r1" = none :=
  ⟨rfl, rfl⟩

/-- C5 amended: during update_researcher_comprehensive both cache keys are
deleted (not patched); the full-profile key is absent when the operation
completes, so a subsequent profile read finds no cached entry, and the
statistics hash key is likewise absent unless the update body carries a
recognised metric field, in which case it holds exactly the freshly
rebuilt statistics mapping (written after the deletion, not merged with
the old hash). -/
theorem update_cache_invalidation_amended :
    ∀ (w : World) (now : Nat) (rid : String) (upd : Dict),
      metricsObjOk upd = true → w.redisUp = true →
      (assocGet (ResearchDatabaseManager.update_researcher_comprehensive
          w now rid upd).2.redis.profileCache rid = none ∧
        RedisRepository.get_cached_researcher_profile true
          (ResearchDatabaseManager.update_researcher_comprehensive
            w now rid upd).2.redis rid = none) ∧
      (dictGet upd "collaboration_metrics" = none →
        assocGet (ResearchDatabaseManager.update_researcher_comprehensive
          w now rid upd).2.redis.statsCache rid = none) ∧
      (∀ m : Dict, dictGet upd "collaboration_metrics" = some (.obj m) →
        (ResearchDatabaseManager.updateStats m = [] →
          assocGet (ResearchDatabaseManager.update_researcher_comprehensive
            w now rid upd).2.redis.statsCache rid = none) ∧
        (ResearchDatabaseManager.updateStats m ≠ [] →
          assocGet (ResearchDatabaseManager.update_researcher_comprehensive
            w now rid upd).2.redis.statsCache rid =
          some ((ResearchDatabaseManager.updateStats m).foldl
            (fun mm kv => assocSet mm kv.1 kv.2) [], 3600))) := by
  intro w now rid upd hok hru
  rcases ht : MongoDBRepository.update_researcher w.mongoUp now w.researchers
    rid upd with ⟨s, c, u⟩
  rcases hn : Neo4jRepository.update_researcher_node w.neo4jUp w.graph rid u
    with ⟨b1, g'⟩
  rcases hr : RedisRepository.invalidate_researcher_cache w.redisUp w.redis rid
    with ⟨b2, r1⟩
  have hu : u = dictSet upd "metadata.last_updated" (.time now) := by
    have := update_researcher_mutated w.mongoUp now w.researchers rid upd
    rw [ht] at this
    exact this
  have hcm : dictGet u "collaboration_metrics" =
      dictGet upd "collaboration_metrics" := by
    rw [hu]
    exact dictGet_dictSet_ne _ _ _ _ (by decide)
  have hr1 : r1 = ⟨assocDel w.redis.profileCache rid,
      assocDel w.redis.statsCache rid⟩ := by
    have hr' := hr
    rw [hru] at hr'
    simp only [RedisRepository.invalidate_researcher_cache] at hr'
    rw [if_neg (by decide : ¬(true = false))] at hr'
    simp only [Prod.mk.injEq] at hr'
    exact hr'.2.symm
  simp only [ResearchDatabaseManager.update_researcher_comprehensive, ht, hn,
    hr]
  unfold metricsObjOk at hok
  cases hgot : dictGet upd "collaboration_metrics" with
  | none =>
      have hhasf : dictHas u "collaboration_metrics" = false := by
        simp [dictHas, hcm, hgot]
      simp only [hhasf, Bool.false_eq_true, if_false]
      refine ⟨⟨?_, ?_⟩, ?_, ?_⟩
      · simp [hr1, assocGet_assocDel_self]
      · simp [RedisRepository.get_cached_researcher_profile, hr1,
          assocGet_assocDel_self]
      · intro _
        simp [hr1, assocGet_assocDel_self]
      · intro m hm
        exact Option.noConfusion hm
  | some v =>
      rw [hgot] at hok
      cases v with
      | obj m =>
          have hgotu : dictGet u "collaboration_metrics" = some (.obj m) :=
            hcm.trans hgot
          have hhas : dictHas u "collaboration_metrics" = true := by
            simp [dictHas, hgotu]
          rw [if_pos hhas]
          simp only [hgotu]
          by_cases he : (ResearchDatabaseManager.updateStats m).isEmpty = true
          · rw [if_pos he]
            refine ⟨⟨?_, ?_⟩, ?_, ?_⟩
            · simp [hr1, assocGet_assocDel_self]
            · simp [RedisRepository.get_cached_researcher_profile, hr1,
                assocGet_assocDel_self]
            · intro hcontra
              exact Option.noConfusion hcontra
            · intro m' hm'
              simp only [Option.some.injEq, Val.obj.injEq] at hm'
              subst hm'
              refine ⟨fun _ => by simp [hr1, assocGet_assocDel_self],
                fun hne => absurd (List.isEmpty_iff.mp he) hne⟩
          · rw [if_neg he]
            rcases hs : RedisRepository.update_researcher_stats w.redisUp r1
              rid (ResearchDatabaseManager.updateStats m) with ⟨b3, r2⟩
            have hr2 : r2 = RedisState.mk r1.profileCache
                (assocSet r1.statsCache rid
                  (((ResearchDatabaseManager.updateStats m).foldl
                    (fun mm kv => assocSet mm kv.1 kv.2) []), 3600)) := by
              have hs' := hs
              rw [hru] at hs'
              simp only [RedisRepository.update_researcher_stats] at hs'
              rw [if_neg (by decide : ¬(true = false))] at hs'
              rw [hr1] at hs'
              simp only [assocGet_assocDel_self, Prod.mk.injEq] at hs'
              rw [← hs'.2, hr1]
            simp only [hs]
            refine ⟨⟨?_, ?_⟩, ?_, ?_⟩
            · simp [hr2, hr1, assocGet_assocDel_self]
            · simp [RedisRepository.get_cached_researcher_profile, hr2, hr1,
                assocGet_assocDel_self]
            · intro hcontra
              exact Option.noConfusion hcontra
            · intro m' hm'
              simp only [Option.some.injEq, Val.obj.injEq] at hm'
              subst hm'
              constructor
              · intro hz
                rw [hz] at he
                simp at he
              · intro _
                simp [hr2, assocGet_assocSet_self]
      | null => exact absurd hok (by simp)
      | str s' => exact absurd hok (by simp)
      | num n => exact absurd hok (by simp)
      | boolean b => exact absurd hok (by simp)
      | time t => exact absurd hok (by simp)
      | oid s' => exact absurd hok (by simp)
      | arr xs => exact absurd hok (by simp)

/-- C5 amended witness: the instantiated amended claim at the concrete
update carrying a metric field. -/
theorem update_cache_invalidation_amended_witness :
    (assocGet (ResearchDatabaseManager.update_researcher_comprehensive
        exUpdateWorld 7 "r1" exUpdateData).2.redis.profileCache "r1" = none ∧
      RedisRepository.get_cached_researcher_profile true
        (ResearchDatabaseManager.update_researcher_comprehensive
          exUpdateWorld 7 "r1" exUpdateData).2.redis "r1" = none) ∧
    (ResearchDatabaseManager.updateStats [("h_index", .num 5)] ≠ [] →
      assocGet (ResearchDatabaseManager.update_researcher_comprehensive
        exUpdateWorld 7 "r1" exUpdateData).2.redis.statsCache "r1" =
      some ((ResearchDatabaseManager.updateStats [("h_index", .num 5)]).foldl
        (fun mm kv => assocSet mm kv.1 kv.2) [], 3600)) := by
  obtain ⟨h1, h2, h3⟩ :=
    update_cache_invalidation_amended exUpdateWorld 7 "r1" exUpdateData rfl rfl
  exact ⟨h1, (h3 [("h_index", .num 5)] rfl).2⟩

/-- C1: when the document-store insert raises, create_researcher_comprehensive
aborts with that error and mirrors nothing; when the insert succeeds (and
the facade itself raises nothing, i.e. the metrics block is shape-correct),
the operation returns the document-store identifier and keeps the document
write, whatever the state of the graph store and the cache store (their
failures are caught inside the repository calls). -/
theorem create_comprehensive_error_policy :
    (∀ (w : World) (now : Nat) (fid : String) (data : Dict) (e : String),
      MongoDBRepository.create_researcher w.mongoUp now fid w.researchers
        data = .error e →
      ResearchDatabaseManager.create_researcher_comprehensive w now fid data =
        (.error e, w)) ∧
    (∀ (w : World) (now : Nat) (fid : String) (data : Dict)
        (rid : String) (coll' : List Dict) (data' : Dict),
      MongoDBRepository.create_researcher w.mongoUp now fid w.researchers
        data = .ok (rid, coll', data') →
      metricsShapeOk data = true →
      (ResearchDatabaseManager.create_researcher_comprehensive
        w now fid data).1 = .ok rid ∧
      (ResearchDatabaseManager.create_researcher_comprehensive
        w now fid data).2.researchers = coll') := by
  constructor
  · intro w now fid data e h
    simp [ResearchDatabaseManager.create_researcher_comprehensive, h]
  · intro w now fid data rid coll' data' h hwf
    obtain ⟨hcoll, hcm⟩ :=
      create_researcher_ok_shape w.mongoUp now fid w.researchers data rid
        coll' data' h
    have hcm2 : dictGet (dictSet data' "_id" (.str rid))
        "collaboration_metrics" = dictGet data "collaboration_metrics" := by
      rw [dictGet_dictSet_ne _ _ _ _ (by decide)]
      exact hcm
    rcases hn : Neo4jRepository.create_researcher_node w.neo4jUp w.graph
      (dictSet data' "_id" (.str rid)) with ⟨nb, g'⟩
    simp only [ResearchDatabaseManager.create_researcher_comprehensive, h, hn]
    unfold metricsShapeOk at hwf
    cases hgot : dictGet data "collaboration_metrics" with
    | none =>
        have hhasf : dictHas (dictSet data' "_id" (.str rid))
            "collaboration_metrics" = false := by
          simp [dictHas, hcm2, hgot]
        rcases hc : RedisRepository.cache_researcher_profile w.redisUp w.redis
          rid (dictSet data' "_id" (.str rid)) 1800 with ⟨cb, r2⟩
        simp [hhasf, hc]
    | some v =>
        rw [hgot] at hwf
        cases v with
        | obj m =>
            have hgotu : dictGet (dictSet data' "_id" (.str rid))
                "collaboration_metrics" = some (.obj m) := hcm2.trans hgot
            have hhas : dictHas (dictSet data' "_id" (.str rid))
                "collaboration_metrics" = true := by
              simp [dictHas, hgotu]
            rw [if_pos hhas]
            simp only [hgotu]
            simp only [Bool.and_eq_true, Option.isSome_iff_exists] at hwf
            obtain ⟨⟨⟨p, hp⟩, q, hq⟩, cv, hcv⟩ := hwf
            have hcs : ResearchDatabaseManager.createStats m =
                some [("publications_count", valToString p),
                      ("h_index", valToString q),
                      ("collaboration_score", valToString cv)] := by
              simp [ResearchDatabaseManager.createStats, hp, hq, hcv]
            rw [hcs]
            rcases hst : RedisRepository.update_researcher_stats w.redisUp
              w.redis rid [("publications_count", valToString p),
                ("h_index", valToString q),
                ("collaboration_score", valToString cv)] with ⟨sb, r1⟩
            rcases hc : RedisRepository.cache_researcher_profile w.redisUp r1
              rid (dictSet data' "_id" (.str rid)) 1800 with ⟨cb, r2⟩
            simp [hst, hc]
        | null => exact absurd hwf (by simp)
        | str s' => exact absurd hwf (by simp)
        | num n => exact absurd hwf (by simp)
        | boolean b => exact absurd hwf (by simp)
        | time t => exact absurd hwf (by simp)
        | oid s' => exact absurd hwf (by simp)
        | arr xs => exact absurd hwf (by simp)

/-- C1 witness: with the graph and cache stores down and the document store
up, the create still returns the generated identifier. -/
theorem create_comprehensive_error_policy_witness :
    (ResearchDatabaseManager.create_researcher_comprehensive
      exCreateWorld 0 "id1" exCreateData).1 = .ok "id1" := by
  exact (create_comprehensive_error_policy.2 exCreateWorld 0 "id1"
    exCreateData "id1" _ _ rfl rfl).1

/-- C2: whenever the complete-profile read returns a profile, its
collaboration, publications and projects sections equal the results of
fresh queries against the graph store and the document store (functions
of those stores only, never of the cache), on a cache hit exactly as on a
cache miss; only the base entity fields are served from the cache (hit)
or from the document store (miss). -/
theorem profile_subsections_fresh :
    ∀ (w : World) (rid : String) (p : Profile) (w' : World),
      ResearchQueryEngine.get_researcher_profile_complete w rid =
        (.ok p, w') →
      (p.collaborators =
          Neo4jRepository.find_collaborators w.neo4jUp w.graph rid ∧
        p.collaboration_count =
          (Neo4jRepository.find_collaborators w.neo4jUp w.graph rid).length ∧
        ResearchQueryEngine.pubSection w.publications rid =
          .ok (p.publications, p.total_citations) ∧
        p.projects = ResearchQueryEngine.projectsFor w.projects rid) ∧
      (∀ c, RedisRepository.get_cached_researcher_profile w.redisUp w.redis
          rid = some c →
        p.cache_status = "hit" ∧
        p.basic_info = dictGetD c "personal_info" (.obj [])) ∧
      (RedisRepository.get_cached_researcher_profile w.redisUp w.redis rid =
          none →
        ∃ d, MongoDBRepository.get_researcher w.researchers rid = some d ∧
          p.cache_status = "miss" ∧
          p.basic_info = dictGetD d "personal_info" (.obj [])) := by
  intro w rid p w' hmain
  unfold ResearchQueryEngine.get_researcher_profile_complete at hmain
  cases hc : RedisRepository.get_cached_researcher_profile w.redisUp w.redis
    rid with
  | some cached =>
      simp only [hc] at hmain
      cases hp : ResearchQueryEngine.mkProfile w rid cached "hit" with
      | error e => simp only [hp] at hmain; cases hmain
      | ok q =>
          simp only [hp, Prod.mk.injEq, ProfileOut.ok.injEq] at hmain
          obtain ⟨rfl, -⟩ := hmain
          obtain ⟨f1, f2, f3, f4, f5, f6⟩ :=
            mkProfile_ok_fields w rid cached "hit" q hp
          refine ⟨⟨f1, f2, f3, f4⟩, ?_, ?_⟩
          · intro c hcc
            cases hcc
            exact ⟨f5, f6⟩
          · intro hnone
            exact Option.noConfusion hnone
  | none =>
      simp only [hc] at hmain
      cases hm : MongoDBRepository.get_researcher w.researchers rid with
      | none => simp only [hm] at hmain; cases hmain
      | some d =>
          simp only [hm] at hmain
          rcases hcw : RedisRepository.cache_researcher_profile w.redisUp
            w.redis rid d 1800 with ⟨cb, r2⟩
          simp only [hcw] at hmain
          cases hp : ResearchQueryEngine.mkProfile w rid d "miss" with
          | error e => simp only [hp] at hmain; cases hmain
          | ok q =>
              simp only [hp, Prod.mk.injEq, ProfileOut.ok.injEq] at hmain
              obtain ⟨rfl, -⟩ := hmain
              obtain ⟨f1, f2, f3, f4, f5, f6⟩ :=
                mkProfile_ok_fields w rid d "miss" q hp
              refine ⟨⟨f1, f2, f3, f4⟩, ?_, ?_⟩
              · intro c hcc
                exact Option.noConfusion hcc
              · intro _
                exact ⟨d, rfl, f5, f6⟩

/-- C2 witness: at a world whose cache holds a body for r1 differing from
the stored document, the returned profile has cache-status hit, its base
fields come from the cached body, and its sections equal the fresh graph
and document store query results. -/
theorem profile_subsections_fresh_witness :
    ({ researcher_id := "r1"
       basic_info := .obj [("first_name", .str "Cached")]
       academic_profile := .obj []
       research_interests := .arr []
       collaboration_metrics := .obj []
       collaborators := [[("id", .str "r2"), ("distance", .num 1)]]
       collaboration_count := 1
       network_depth := 2
       publications := [[("publication_id", .str "p1"), ("title", .str "T"),
         ("bibliographic_info", .obj []), ("author_order", .num 1),
         ("contribution", .null),
         ("metrics", .obj [("citation_count", .num 4)])]]
       publications_count := 1
       total_citations := 4
       projects := [[("_id", .str "j1"), ("participants",
         .obj [("principal_investigators",
           .arr [.obj [("researcher_id", .str "r1")]])])]]
       projects_count := 1
       cache_status := "hit" } : Profile).collaborators =
      Neo4jRepository.find_collaborators exReadWorld.neo4jUp
        exReadWorld.graph "r1" ∧
    ResearchQueryEngine.pubSection exReadWorld.publications "r1" =
      .ok ([[("publication_id", .str "p1"), ("title", .str "T"),
        ("bibliographic_info", .obj []), ("author_order", .num 1),
        ("contribution", .null),
        ("metrics", .obj [("citation_count", .num 4)])]], 4) ∧
    ([[("_id", .str "j1"), ("participants",
        .obj [("principal_investigators",
          .arr [.obj [("researcher_id", .str "r1")]])])]] : List Dict) =
      ResearchQueryEngine.projectsFor exReadWorld.projects "r1" := by
  obtain ⟨⟨f1, f2, f3, f4⟩, hhit, -⟩ :=
    profile_subsections_fresh exReadWorld "r1" _ _ rfl
  exact ⟨f1, f3, f4⟩

/-- C3: with no cached profile and no document-store record the
complete-profile read returns the descriptive not-found error value (no
exception escapes, the operation being a total function); on a cache miss
with the record present the entity body is written into the cache with a
1800-second TTL and a returned profile carries cache-status miss; a
returned profile built from a cached body carries cache-status hit. -/
theorem profile_notfound_and_cache :
    (∀ (w : World) (rid : String),
      RedisRepository.get_cached_researcher_profile w.redisUp w.redis rid =
        none →
      MongoDBRepository.get_researcher w.researchers rid = none →
      ResearchQueryEngine.get_researcher_profile_complete w rid =
        (.err "Researcher not found", w)) ∧
    (∀ (w : World) (rid : String) (d : Dict),
      w.redisUp = true →
      RedisRepository.get_cached_researcher_profile w.redisUp w.redis rid =
        none →
      MongoDBRepository.get_researcher w.researchers rid = some d →
      assocGet (ResearchQueryEngine.get_researcher_profile_complete
        w rid).2.redis.profileCache rid = some (d, 1800) ∧
      ∀ p : Profile,
        (ResearchQueryEngine.get_researcher_profile_complete w rid).1 =
          .ok p → p.cache_status = "miss") ∧
    (∀ (w : World) (rid : String) (c : Dict) (p : Profile),
      RedisRepository.get_cached_researcher_profile w.redisUp w.redis rid =
        some c →
      (ResearchQueryEngine.get_researcher_profile_complete w rid).1 =
        .ok p →
      p.cache_status = "hit") := by
  refine ⟨?_, ?_, ?_⟩
  · intro w rid h1 h2
    unfold ResearchQueryEngine.get_researcher_profile_complete
    simp only [h1, h2]
  · intro w rid d hru hc hm
    rcases hcw : RedisRepository.cache_researcher_profile w.redisUp w.redis
      rid d 1800 with ⟨cb, r2⟩
    have hr2 : r2 = RedisState.mk
        (assocSet w.redis.profileCache rid (d, 1800))
        w.redis.statsCache := by
      have hcw' := hcw
      rw [hru] at hcw'
      simp only [RedisRepository.cache_researcher_profile] at hcw'
      rw [if_neg (by decide : ¬(true = false))] at hcw'
      simp only [Prod.mk.injEq] at hcw'
      exact hcw'.2.symm
    unfold ResearchQueryEngine.get_researcher_profile_complete
    simp only [hc, hm, hcw]
    cases hp : ResearchQueryEngine.mkProfile w rid d "miss" with
    | error e =>
        simp only [hp]
        refine ⟨?_, ?_⟩
        · simp [hr2, assocGet_assocSet_self]
        · intro p hcontra
          exact ProfileOut.noConfusion hcontra
    | ok q =>
        simp only [hp]
        refine ⟨?_, ?_⟩
        · simp [hr2, assocGet_assocSet_self]
        · intro p hq
          simp only [ProfileOut.ok.injEq] at hq
          subst hq
          exact (mkProfile_ok_fields w rid d "miss" q hp).2.2.2.2.1
  · intro w rid c p hc hmain
    unfold ResearchQueryEngine.get_researcher_profile_complete at hmain
    simp only [hc] at hmain
    cases hp : ResearchQueryEngine.mkProfile w rid c "hit" with
    | error e =>
        simp only [hp] at hmain
        exact ProfileOut.noConfusion hmain
    | ok q =>
        simp only [hp, ProfileOut.ok.injEq] at hmain
        subst hmain
        exact (mkProfile_ok_fields w rid c "hit" q hp).2.2.2.2.1

/-- C3 witness: the not-found error at an empty store, and the 1800-second
cache fill on a concrete miss where the record exists. -/
theorem profile_notfound_and_cache_witness :
    ResearchQueryEngine.get_researcher_profile_complete exCreateWorld "rx" =
      (.err "Researcher not found", exCreateWorld) ∧
    assocGet (ResearchQueryEngine.get_researcher_profile_complete
      exReadWorld "r2").2.redis.profileCache "r2" =
      some ([("_id", .str "r2")], 1800) := by
  exact ⟨profile_notfound_and_cache.1 exCreateWorld "rx" rfl rfl,
    (profile_notfound_and_cache.2.1 exReadWorld "r2" [("_id", .str "r2")]
      rfl rfl rfl).1⟩

/-- C8: the free-text name search tokenizes the stripped query on
whitespace; with more than one token the built filter is the conjunction,
over the tokens, of per-token disjunctions (the token case-insensitively
matching the first name or the last name), and with a single token it is
the simple disjunction for that token. -/
theorem name_search_filter_shape :
    ∀ s : String,
      ((pySplit (pyStrip s)).length > 1 →
        ResearchQueryEngine.buildNameQuery s =
          andOfList ((pySplit (pyStrip s)).map orPairOf) ∧
        ∀ doc : Dict, holdsF (ResearchQueryEngine.buildNameQuery s) doc =
          (pySplit (pyStrip s)).all fun t =>
            regexHolds "personal_info.first_name" t doc ||
            regexHolds "personal_info.last_name" t doc) ∧
      (∀ t : String, pySplit (pyStrip s) = [t] →
        ResearchQueryEngine.buildNameQuery s = orPairOf t ∧
        ∀ doc : Dict, holdsF (ResearchQueryEngine.buildNameQuery s) doc =
          (regexHolds "personal_info.first_name" t doc ||
           regexHolds "personal_info.last_name" t doc)) := by
  intro s
  constructor
  · intro hlen
    have hq : ResearchQueryEngine.buildNameQuery s =
        andOfList ((pySplit (pyStrip s)).map orPairOf) := by
      simp [ResearchQueryEngine.buildNameQuery, hlen]
    refine ⟨hq, ?_⟩
    intro doc
    rw [hq, holdsF_andOfList]
    induction pySplit (pyStrip s) with
    | nil => rfl
    | cons t ts ih => simp [List.all_cons, ih, holdsF, orPairOf]
  · intro t ht
    have hlen : ¬ ((pySplit (pyStrip s)).length > 1) := by
      rw [ht]
      simp
    have hstrip : pyStrip s = t := by
      have hmap : (splitWsAux (pyStrip s).data []).map String.mk = [t] := ht
      rcases hsp : splitWsAux (pyStrip s).data [] with _ | ⟨w, rest⟩
      · rw [hsp] at hmap
        cases hmap
      · rw [hsp] at hmap
        rcases rest with _ | ⟨w2, rest2⟩
        · simp only [List.map_cons, List.map_nil, List.cons.injEq,
            and_true] at hmap
          have htrim : trimChars (pyStrip s).data = w :=
            splitWs_single_trim _ _ hsp
          have hdata : (pyStrip s).data = trimChars s.data := rfl
          rw [hdata, trimChars_idem] at htrim
          rw [← hmap, ← htrim]
          rfl
        · cases hmap
    have hq : ResearchQueryEngine.buildNameQuery s = orPairOf t := by
      simp only [ResearchQueryEngine.buildNameQuery]
      rw [if_neg hlen, hstrip]
    refine ⟨hq, ?_⟩
    intro doc
    rw [hq]
    rfl

/-- C8 witness: the two-token and one-token instances at concrete queries
with surrounding and repeated whitespace. -/
theorem name_search_filter_shape_witness :
    ResearchQueryEngine.buildNameQuery "  Ada   Lovelace " =
      andOfList ((pySplit (pyStrip "  Ada   Lovelace ")).map orPairOf) ∧
    ResearchQueryEngine.buildNameQuery " Ada " = orPairOf "Ada" := by
  exact ⟨((name_search_filter_shape "  Ada   Lovelace ").1 (by decide)).1,
    ((name_search_filter_shape " Ada ").2 "Ada" (by decide)).1⟩

theorem collabChain_succ_eq (a b : String) (hab : a ≠ b) :
    ∀ n : Nat, collabChain a b (n + 1) =
      ⟨[[("id", .str a)], [("id", .str b)]], [⟨a, b, n + 1⟩]⟩ := by
  have hab' : (a == b) = false := beq_eq_false_iff_ne.mpr hab
  have hba' : (b == a) = false := beq_eq_false_iff_ne.mpr (Ne.symm hab)
  intro n
  induction n with
  | zero =>
      simp [collabChain, Neo4jRepository.add_collaboration,
        Neo4jRepository.mergeNode, nodeHasId, dictGet,
        Neo4jRepository.bumpEdge, hab', hba']
  | succ m ih =>
      have hstep : collabChain a b (m + 1 + 1) =
          (Neo4jRepository.add_collaboration true (collabChain a b (m + 1))
            a b).2 := rfl
      rw [hstep, ih]
      simp [Neo4jRepository.add_collaboration, Neo4jRepository.mergeNode,
        nodeHasId, dictGet, Neo4jRepository.bumpEdge, edgeJoins, hab', hba']

/-- C9: n add_collaboration calls on the same pair leave the undirected
co-authorship edge at strength n (the first call creates it at 1, each
further call increments it); the complete profile of the first researcher
in that scenario counts one distinct collaborator whatever n is, with the
collaborator row at traversal distance 1. -/
theorem add_collaboration_strength_and_count :
    ∀ (a b : String) (n : Nat), a ≠ b → a ≠ "" → 1 ≤ n →
      strengthBetween (collabChain a b n) a b = some n ∧
      (ResearchQueryEngine.get_researcher_profile_complete
        (scenarioWorld a b n) a).1 =
      .ok { researcher_id := a
            basic_info := .obj []
            academic_profile := .obj []
            research_interests := .arr []
            collaboration_metrics := .obj []
            collaborators := [[("id", .str b), ("distance", .num 1)]]
            collaboration_count := 1
            network_depth := 2
            publications := []
            publications_count := 0
            total_citations := 0
            projects := []
            projects_count := 0
            cache_status := "miss" } := by
  intro a b n hab hae hn
  obtain ⟨m, rfl⟩ : ∃ m, n = m + 1 := ⟨n - 1, by omega⟩
  have hchain := collabChain_succ_eq a b hab m
  have hab' : (a == b) = false := beq_eq_false_iff_ne.mpr hab
  have hba' : (b == a) = false := beq_eq_false_iff_ne.mpr (Ne.symm hab)
  constructor
  · rw [hchain]
    simp [strengthBetween, List.find?, edgeJoins]
  · simp [ResearchQueryEngine.get_researcher_profile_complete, scenarioWorld,
      hchain, RedisRepository.get_cached_researcher_profile,
      MongoDBRepository.get_researcher, hae, MongoDBRepository.findOne,
      idMatch, idValEq, idValString, MongoDBRepository.convertIdStr, dictGet,
      dictSet, RedisRepository.cache_researcher_profile, assocGet,
      ResearchQueryEngine.mkProfile, ResearchQueryEngine.pubSection,
      ResearchQueryEngine.collectEntries, ResearchQueryEngine.totalCitations,
      ResearchQueryEngine.projectsFor, Neo4jRepository.find_collaborators,
      nodeHasId, Neo4jRepository.collabRows, edgeTouches, edgeOther,
      Neo4jRepository.dedupRows, Neo4jRepository.dedupRowsAux,
      Neo4jRepository.sortRows, Neo4jRepository.insertRow,
      Neo4jRepository.rowLe, Neo4jRepository.hIndexKey, dictGetD,
      List.find?, List.enum, List.enumFrom, hab', hba']

/-- C9 witness: three calls on a concrete pair give strength 3 while the
profile still counts one collaborator. -/
theorem add_collaboration_strength_and_count_witness :
    strengthBetween (collabChain "r1" "r2" 3) "r1" "r2" = some 3 ∧
    (ResearchQueryEngine.get_researcher_profile_complete
      (scenarioWorld "r1" "r2" 3) "r1").1 =
    .ok { researcher_id := "r1"
          basic_info := .obj []
          academic_profile := .obj []
          research_interests := .arr []
          collaboration_metrics := .obj []
          collaborators := [[("id", .str "r2"), ("distance", .num 1)]]
          collaboration_count := 1
          network_depth := 2
          publications := []
          publications_count := 0
          total_citations := 0
          projects := []
          projects_count := 0
          cache_status := "miss" } :=
  add_collaboration_strength_and_count "r1" "r2" 3 (by decide) (by decide)
    (by decide)
